import Mathlib

/-!
# Operation evaluation, fee settlement, proposal index and custom votes

A shallow embedding of

* `libraries/chain/custom_vote_evaluator.cpp` (creation and casting of custom votes),
* `libraries/chain/evaluator.cpp` (the evaluate-apply lifecycle, fee preparation and
  fee settlement),
* `libraries/chain/proposal_object.cpp` (authorization of proposals and the
  account-to-proposal index),
* `libraries/chain/protocol/proposal.cpp` (validation and required authorities of
  proposal updates),
* `libraries/chain/include/graphene/chain/protocol/transfer.hpp` (required authorities
  of transfers),
* `libraries/chain/include/graphene/chain/asset_object.hpp` (the reserved amount of an
  asset),

followed by the properties established about them.

Conventions of the embedding.

* A `const database&` is a read-only argument; a `database&` is threaded through and
  returned.  A function that may throw returns the state reached at the point of exit
  together with an `Except failure _` result, so that what has (not) been written
  before a throw can be stated.
* A pointer to a stored object is the key under which the store holds it.
* A function the sources only call, such as a virtual member or `verify_authority`,
  is an argument of the function that calls it.
* The integer types (`share_type`, `time_point_sec`, the identifiers and counters)
  are declared outside the files embedded here; their arithmetic is taken exact, over
  `Int` for amounts and `Nat` for times, identifiers and counters.
* `flat_set` members that the code iterates over are lists in iteration order;
  `std::set` members that the code only measures or reads the last element of are
  finite sets.
-/

namespace Graphene

/-! ## Basic types -/

abbrev account_uid_type := Nat
abbrev asset_aid_type := Nat
abbrev share_type := Int
abbrev time_point_sec := Nat
abbrev custom_vote_vid_type := Nat
abbrev object_id_type := Nat
abbrev proposal_id_type := Nat
abbrev public_key_type := Nat

/-- The ways in which the embedded functions stop without a result: one constructor
for each `FC_ASSERT`/`FC_THROW` of the sources and for each failing lookup, and two
for reads the sources do not guard. -/
inductive failure where
  | hardfork_0_4_not_reached
  | account_not_found
  | account_statistics_not_found
  | asset_not_found
  | object_not_found
  | invalid_vote_vid
  | vote_expired_time_out_of_range
  | custom_vote_not_found
  | custom_vote_overdue
  | vote_options_num_out_of_range
  | balance_less_than_required
  | option_not_existent
  | negative_fee
  | must_use_core_asset
  | insufficient_prepaid
  | insufficient_csaf
  | deprecated
  | null_dereference
  | empty_set_dereference
  | wrong_operation_type
  | authority_not_satisfied
  | no_approval_change
  | add_and_remove_approval
  deriving DecidableEq, Repr

/-- The empty result of an evaluator. -/
structure void_result where
  deriving DecidableEq, Repr

/-- An amount of an asset. -/
structure asset where
  amount : share_type
  asset_id : asset_aid_type
  deriving DecidableEq, Repr

/-! ## Stored objects -/

/-- A weighted set of keys and accounts with a threshold.  The embedded code names
`weight_threshold` and `key_auths`; the weighted account members are those the
description of an authority speaks of. -/
structure authority where
  weight_threshold : Nat := 0
  key_auths : List (public_key_type × Nat) := []
  account_auths : List (account_uid_type × Nat) := []
  deriving DecidableEq, Repr

/-- The weight an authority's keys bring when `signed` tells which keys have signed:
the sum of the weights of the signing keys. -/
def authority.signed_key_weight (auth : authority) (signed : public_key_type → Bool) : Nat :=
  ((auth.key_auths.filter (fun kv => signed kv.1)).map Prod.snd).sum

/-- The members of `account_object` the embedded code reads: the account's number and
its three authorities. -/
structure account_object where
  uid : account_uid_type
  owner : authority := {}
  active : authority := {}
  secondary : authority := {}
  deriving DecidableEq, Repr

/-- The per-account statistics record: the fields read or written by the embedded
code.  `core_balance_votes` stands for the figure `get_votes_from_core_balance`
returns. -/
structure _account_statistics_object where
  last_custom_vote_sequence : custom_vote_vid_type
  prepaid : share_type
  csaf : share_type
  core_balance_votes : share_type
  deriving DecidableEq, Repr

/-- Modelled from the spec: `get_votes_from_core_balance` is declared with the
statistics record, which is not among the embedded files; the spec speaks of a stake
figure derived from the core-asset holdings, kept here as a stored figure. -/
def _account_statistics_object.get_votes_from_core_balance
    (s : _account_statistics_object) : share_type :=
  s.core_balance_votes

structure asset_dynamic_data_object where
  asset_id : asset_aid_type
  current_supply : share_type
  accumulated_fees : share_type
  deriving DecidableEq, Repr

/-- The fields of `asset_object` used here; `max_supply` is `options.max_supply`. -/
structure asset_object where
  asset_id : asset_aid_type
  max_supply : share_type
  dynamic_asset_data_id : object_id_type
  deriving DecidableEq, Repr

structure custom_vote_object where
  id : object_id_type
  custom_vote_creator : account_uid_type
  vote_vid : custom_vote_vid_type
  title : String
  description : String
  vote_expired_time : time_point_sec
  vote_asset_id : asset_aid_type
  required_asset_amount : share_type
  minimum_selected_items : Nat
  maximum_selected_items : Nat
  options : List String
  vote_result : List Nat
  deriving DecidableEq, Repr

/-! ## The object store -/

/-- The part of the ledger state the embedded code reads and writes.  Each unique
index of the store is a partial map from its key; the custom votes are kept in order
of creation. -/
structure database where
  head_block_time : time_point_sec
  /-- The value of `get_global_properties().parameters.get_award_params().custom_vote_effective_time`. -/
  custom_vote_effective_time : Nat
  accounts : account_uid_type → Option account_object
  /-- The same accounts, by object identifier. -/
  accounts_by_id : object_id_type → Option account_object
  account_statistics : account_uid_type → Option _account_statistics_object
  assets : asset_aid_type → Option asset_object
  asset_dynamic_data : object_id_type → Option asset_dynamic_data_object
  custom_votes : List custom_vote_object
  /-- The identifier the store gives to the next custom vote it creates. -/
  next_custom_vote_id : object_id_type
  /-- The value of `get_dynamic_global_properties().enabled_hardfork_version`. -/
  enabled_hardfork_version : Nat := 0
  /-- The value of `get_global_properties().parameters.max_authority_depth`. -/
  max_authority_depth : Nat := 0

/-- Modelled from the spec: `database::get_account_by_uid` is not among the embedded
files; a get-by-key of the object store that throws when the key is absent. -/
def database.get_account_by_uid (d : database) (uid : account_uid_type) :
    Except failure account_object :=
  match d.accounts uid with
  | some a => .ok a
  | none => .error .account_not_found

/-- Modelled from the spec: `database::get_account_statistics_by_uid` is not among the
embedded files; a get-by-key of the object store that throws when the key is absent. -/
def database.get_account_statistics_by_uid (d : database) (uid : account_uid_type) :
    Except failure _account_statistics_object :=
  match d.account_statistics uid with
  | some s => .ok s
  | none => .error .account_statistics_not_found

/-- Modelled from the spec: `database::get_asset_by_aid` is not among the embedded
files; a get-by-key of the object store that throws when the key is absent. -/
def database.get_asset_by_aid (d : database) (aid : asset_aid_type) :
    Except failure asset_object :=
  match d.assets aid with
  | some a => .ok a
  | none => .error .asset_not_found

/-- `asset_object::reserved`: the amount reserved for future issuance.  The expression
`dynamic_data(db)` is `db.get(dynamic_asset_data_id)`, a get-by-identifier that throws
when the identifier is absent. -/
def asset_object.reserved (self : asset_object) (db : database) : Except failure share_type :=
  match db.asset_dynamic_data self.dynamic_asset_data_id with
  | none => .error .object_not_found
  | some dynamic_data => .ok (max (0 : share_type) (self.max_supply - dynamic_data.current_supply))

/-- Modelled from the spec: `database::find_custom_vote_by_vid` is not among the
embedded files; the poll keyed by `(creator, sequence number)`, or nothing. -/
def database.find_custom_vote_by_vid (d : database) (creator : account_uid_type)
    (vid : custom_vote_vid_type) : Option custom_vote_object :=
  d.custom_votes.find? (fun o => o.custom_vote_creator == creator && o.vote_vid == vid)

/-- Modelled from the spec: `database::modify` on a statistics record is not among the
embedded files; copy-modify-write of the record stored under `uid`, every other
record untouched. -/
def database.modify_account_statistics (d : database) (uid : account_uid_type)
    (f : _account_statistics_object → _account_statistics_object) : database :=
  { d with account_statistics := fun u =>
      if u = uid then (d.account_statistics u).map f else d.account_statistics u }

/-- Modelled from the spec: `database::modify` on an asset's dynamic data is not among
the embedded files; copy-modify-write of the record stored under `id`, every other
record untouched. -/
def database.modify_asset_dynamic_data (d : database) (id : object_id_type)
    (f : asset_dynamic_data_object → asset_dynamic_data_object) : database :=
  { d with asset_dynamic_data := fun i =>
      if i = id then (d.asset_dynamic_data i).map f else d.asset_dynamic_data i }

/-- Modelled from the spec: `database::create<custom_vote_object>` is not among the
embedded files; the store picks the identifier, runs the initializer on a blank
record carrying it, and keeps the result. -/
def database.create_custom_vote (d : database)
    (init : custom_vote_object → custom_vote_object) : database × custom_vote_object :=
  let blank : custom_vote_object :=
    { id := d.next_custom_vote_id, custom_vote_creator := 0, vote_vid := 0, title := "",
      description := "", vote_expired_time := 0, vote_asset_id := 0,
      required_asset_amount := 0, minimum_selected_items := 0,
      maximum_selected_items := 0, options := [], vote_result := [] }
  let obj := { init blank with id := d.next_custom_vote_id }
  ({ d with custom_votes := d.custom_votes ++ [obj],
            next_custom_vote_id := d.next_custom_vote_id + 1 }, obj)

/-! ## Custom votes (`custom_vote_evaluator.cpp`) -/

structure custom_vote_create_operation where
  custom_vote_creator : account_uid_type
  vote_vid : custom_vote_vid_type
  title : String
  description : String
  vote_expired_time : time_point_sec
  vote_asset_id : asset_aid_type
  required_asset_amount : share_type
  minimum_selected_items : Nat
  maximum_selected_items : Nat
  options : List String
  deriving DecidableEq, Repr

structure custom_vote_cast_operation where
  voter : account_uid_type
  custom_vote_creator : account_uid_type
  custom_vote_vid : custom_vote_vid_type
  vote_result : Finset Nat
  deriving DecidableEq

/-- The evaluator of `custom_vote_create_operation`; `account_stats` is the pointer
member, empty while it is `nullptr`. -/
structure custom_vote_create_evaluator where
  account_stats : Option account_uid_type := none
  deriving DecidableEq, Repr

/-- `vector::resize` on a tally: cut to `n` slots or filled up with zero slots. -/
def resize (v : List Nat) (n : Nat) : List Nat :=
  v.take n ++ List.replicate (n - v.length) 0

/-- `custom_vote_create_evaluator::do_evaluate`.  The database is `const`; the
evaluator's `account_stats` is set once the statistics record has been found. -/
def custom_vote_create_evaluator.do_evaluate (HARDFORK_0_4_TIME : time_point_sec)
    (self : custom_vote_create_evaluator) (d : database)
    (op : custom_vote_create_operation) :
    custom_vote_create_evaluator × Except failure void_result :=
  if ¬ (d.head_block_time ≥ HARDFORK_0_4_TIME) then
    (self, .error .hardfork_0_4_not_reached)
  else
    match d.get_account_by_uid op.custom_vote_creator with
    | .error e => (self, .error e)
    | .ok _ =>
      match d.get_account_statistics_by_uid op.custom_vote_creator with
      | .error e => (self, .error e)
      | .ok account_stats =>
        let self1 : custom_vote_create_evaluator :=
          { self with account_stats := some op.custom_vote_creator }
        if ¬ (account_stats.last_custom_vote_sequence + 1 = op.vote_vid) then
          (self1, .error .invalid_vote_vid)
        else
          match d.get_asset_by_aid op.vote_asset_id with
          | .error e => (self1, .error e)
          | .ok _ =>
            let range_end_time := d.head_block_time + d.custom_vote_effective_time
            if ¬ (op.vote_expired_time > d.head_block_time
                  ∧ op.vote_expired_time < range_end_time) then
              (self1, .error .vote_expired_time_out_of_range)
            else
              (self1, .ok {})

/-- `custom_vote_create_evaluator::do_apply`: create the poll, then advance the
counter of the record `account_stats` points to. -/
def custom_vote_create_evaluator.do_apply (self : custom_vote_create_evaluator)
    (d : database) (op : custom_vote_create_operation) :
    database × Except failure object_id_type :=
  let created := d.create_custom_vote (fun obj =>
    { obj with
      custom_vote_creator := op.custom_vote_creator
      vote_vid := op.vote_vid
      title := op.title
      description := op.description
      vote_expired_time := op.vote_expired_time
      vote_asset_id := op.vote_asset_id
      required_asset_amount := op.required_asset_amount
      minimum_selected_items := op.minimum_selected_items
      maximum_selected_items := op.maximum_selected_items
      vote_result := resize obj.vote_result op.options.length
      options := op.options })
  let d1 := created.1
  let custom_vote_obj := created.2
  match self.account_stats with
  | none => (d1, .error .null_dereference)
  | some uid =>
    match d1.account_statistics uid with
    | none => (d1, .error .null_dereference)
    | some _ =>
      let d2 := d1.modify_account_statistics uid (fun s =>
        { s with last_custom_vote_sequence := s.last_custom_vote_sequence + 1 })
      (d2, .ok custom_vote_obj.id)

/-- `custom_vote_cast_evaluator::do_evaluate`.  The database is `const`.  Reading
`*rbegin()` of an empty selection has no defined result in the source; it is kept
apart as `empty_set_dereference`. -/
def custom_vote_cast_evaluator.do_evaluate (HARDFORK_0_4_TIME : time_point_sec)
    (d : database) (op : custom_vote_cast_operation) : Except failure void_result :=
  if ¬ (d.head_block_time ≥ HARDFORK_0_4_TIME) then
    .error .hardfork_0_4_not_reached
  else
    match d.get_account_by_uid op.voter with
    | .error e => .error e
    | .ok _ =>
      match d.find_custom_vote_by_vid op.custom_vote_creator op.custom_vote_vid with
      | none => .error .custom_vote_not_found
      | some custom_vote_obj =>
        if ¬ (d.head_block_time ≤ custom_vote_obj.vote_expired_time) then
          .error .custom_vote_overdue
        else if ¬ (op.vote_result.card ≥ custom_vote_obj.minimum_selected_items
                   ∧ op.vote_result.card ≤ custom_vote_obj.maximum_selected_items) then
          .error .vote_options_num_out_of_range
        else
          match d.get_account_statistics_by_uid op.voter with
          | .error e => .error e
          | .ok stats =>
            let votes := stats.get_votes_from_core_balance
            if ¬ (votes ≥ custom_vote_obj.required_asset_amount) then
              .error .balance_less_than_required
            else
              match op.vote_result.max with
              | none => .error .empty_set_dereference
              | some last_index =>
                if ¬ (last_index < custom_vote_obj.options.length) then
                  .error .option_not_existent
                else
                  .ok {}

/-- `custom_vote_cast_evaluator::do_apply`: returns the empty result. -/
def custom_vote_cast_evaluator.do_apply (d : database) (_op : custom_vote_cast_operation) :
    database × Except failure void_result :=
  (d, .ok {})

/-- One `custom_vote_create_operation` run on the ledger: `do_evaluate` on a fresh
evaluator and, only when it succeeds, `do_apply` of the same evaluator; a failed
evaluation leaves the ledger as it was. -/
def run_custom_vote_create (HARDFORK_0_4_TIME : time_point_sec) (d : database)
    (op : custom_vote_create_operation) : database × Except failure object_id_type :=
  match custom_vote_create_evaluator.do_evaluate HARDFORK_0_4_TIME {} d op with
  | (_, .error e) => (d, .error e)
  | (ev, .ok _) => ev.do_apply d op

/-- The ledger after a sequence of creations, rejected ones included, run in order. -/
def run_custom_vote_creates (HARDFORK_0_4_TIME : time_point_sec) (d : database) :
    List custom_vote_create_operation → database
  | [] => d
  | op :: ops =>
    run_custom_vote_creates HARDFORK_0_4_TIME (run_custom_vote_create HARDFORK_0_4_TIME d op).1 ops

/-- One `custom_vote_cast_operation` run on the ledger: `do_evaluate` and, only when it
succeeds, `do_apply`; a failed evaluation leaves the ledger as it was. -/
def run_custom_vote_cast (HARDFORK_0_4_TIME : time_point_sec) (d : database)
    (op : custom_vote_cast_operation) : database × Except failure void_result :=
  match custom_vote_cast_evaluator.do_evaluate HARDFORK_0_4_TIME d op with
  | .error e => (d, .error e)
  | .ok _ => custom_vote_cast_evaluator.do_apply d op

/-- The sequence numbers of the polls `creator` has created, in order of creation. -/
def database.vote_vids_of (d : database) (creator : account_uid_type) :
    List custom_vote_vid_type :=
  (d.custom_votes.filter (fun o => o.custom_vote_creator == creator)).map (fun o => o.vote_vid)

/-- The creator's counter, `0` for an account without a statistics record. -/
def database.last_custom_vote_sequence (d : database) (uid : account_uid_type) :
    custom_vote_vid_type :=
  match d.account_statistics uid with
  | some s => s.last_custom_vote_sequence
  | none => 0

/-! ## Operations and their results -/

/-- An operation: the two custom-vote operations embedded here, and any other member
of the variant by its tag. -/
inductive operation where
  | custom_vote_create (op : custom_vote_create_operation)
  | custom_vote_cast (op : custom_vote_cast_operation)
  | other (tag : Nat)
  deriving DecidableEq

/-- The member of a transaction the embedded code reads. -/
structure transaction where
  operations : List operation := []
  deriving DecidableEq

/-! ## Fees (`evaluator.cpp`) -/

/-- The three optional source portions of a structured fee. -/
structure fee_option_type where
  from_balance : Option asset
  from_prepaid : Option asset
  from_csaf : Option asset
  deriving DecidableEq, Repr

/-- A fee descriptor: a total and, optionally, its split over the sources. -/
structure fee_type where
  total : asset
  options : Option fee_option_type
  deriving DecidableEq, Repr

structure transaction_evaluation_state where
  skip_fee : Bool
  deriving DecidableEq, Repr

/-- The members of `generic_evaluator` the fee code reads and writes.  The two pointer
members are empty while they are `nullptr`. -/
structure generic_evaluator where
  trx_state : transaction_evaluation_state
  fee_from_account : asset
  total_fee_paid : share_type
  from_balance : share_type
  from_prepaid : share_type
  from_csaf : share_type
  fee_paying_account : Option account_uid_type
  fee_paying_account_statistics : Option account_uid_type
  deriving DecidableEq, Repr

/-- An evaluator as constructed: amounts zero, pointers null, and `fee_from_account`
the default `asset()`, which is zero units of the core asset (the remark beside the
omitted `else` branch of `prepare_fee` relies on that default). -/
def generic_evaluator.fresh (GRAPHENE_CORE_ASSET_AID : asset_aid_type)
    (trx_state : transaction_evaluation_state) : generic_evaluator :=
  { trx_state := trx_state
    fee_from_account := { amount := 0, asset_id := GRAPHENE_CORE_ASSET_AID }
    total_fee_paid := 0
    from_balance := 0
    from_prepaid := 0
    from_csaf := 0
    fee_paying_account := none
    fee_paying_account_statistics := none }

/-- The statement `fee_paying_account_statistics = &fee_paying_account->statistics(d)`:
follow the account pointer, look the account's statistics record up, keep a pointer
to it. -/
def generic_evaluator.capture_statistics (self : generic_evaluator) (d : database) :
    generic_evaluator × Except failure Unit :=
  match self.fee_paying_account with
  | none => (self, .error .null_dereference)
  | some uid =>
    match d.get_account_statistics_by_uid uid with
    | .error e => (self, .error e)
    | .ok _ => ({ self with fee_paying_account_statistics := some uid }, .ok ())

/-- `generic_evaluator::prepare_fee(asset fee)`. -/
def generic_evaluator.prepare_fee_asset (GRAPHENE_CORE_ASSET_AID : asset_aid_type)
    (self : generic_evaluator) (d : database) (fee : asset) :
    generic_evaluator × Except failure Unit :=
  let self1 := { self with fee_from_account := fee }
  if ¬ (fee.amount ≥ 0) then
    (self1, .error .negative_fee)
  else if ¬ (fee.asset_id = GRAPHENE_CORE_ASSET_AID) then
    (self1, .error .must_use_core_asset)
  else
    self1.capture_statistics d

/-- `generic_evaluator::prepare_fee(account_uid_type account_uid, asset fee)`. -/
def generic_evaluator.prepare_fee_uid_asset (GRAPHENE_CORE_ASSET_AID : asset_aid_type)
    (self : generic_evaluator) (d : database) (account_uid : account_uid_type)
    (fee : asset) : generic_evaluator × Except failure Unit :=
  match d.get_account_by_uid account_uid with
  | .error e => (self, .error e)
  | .ok _ =>
    generic_evaluator.prepare_fee_asset GRAPHENE_CORE_ASSET_AID
      { self with fee_paying_account := some account_uid } d fee

/-- `generic_evaluator::prepare_fee(account_id_type account_id, asset fee)`; the
expression `account_id( db() )` is a get-by-identifier that throws when the identifier
is absent. -/
def generic_evaluator.prepare_fee_id_asset (GRAPHENE_CORE_ASSET_AID : asset_aid_type)
    (self : generic_evaluator) (d : database) (account_id : object_id_type)
    (fee : asset) : generic_evaluator × Except failure Unit :=
  match d.accounts_by_id account_id with
  | none => (self, .error .object_not_found)
  | some a =>
    generic_evaluator.prepare_fee_asset GRAPHENE_CORE_ASSET_AID
      { self with fee_paying_account := some a.uid } d fee

/-- `generic_evaluator::prepare_fee(const fee_type& fee)`. -/
def generic_evaluator.prepare_fee (GRAPHENE_CORE_ASSET_AID : asset_aid_type)
    (self : generic_evaluator) (d : database) (fee : fee_type) :
    generic_evaluator × Except failure Unit :=
  let self1 : generic_evaluator :=
    match fee.options with
    | none => { self with fee_from_account := fee.total }
    | some fov =>
      match fov.from_balance with
      | some b => { self with fee_from_account := b }
      | none => self
  if ¬ (self1.fee_from_account.asset_id = GRAPHENE_CORE_ASSET_AID) then
    (self1, .error .must_use_core_asset)
  else
    let self2 := { self1 with from_balance := self1.fee_from_account.amount
                              total_fee_paid := fee.total.amount }
    match self2.capture_statistics d with
    | (self3, .error e) => (self3, .error e)
    | (self3, .ok _) =>
      match fee.options with
      | none => (self3, .ok ())
      | some fov =>
        let self4 :=
          match fov.from_prepaid with
          | some a => { self3 with from_prepaid := a.amount }
          | none => self3
        let self5 :=
          match fov.from_csaf with
          | some a => { self4 with from_csaf := a.amount }
          | none => self4
        (self5, .ok ())

/-- `generic_evaluator::prepare_fee(account_uid_type account_uid, const fee_type& fee)`. -/
def generic_evaluator.prepare_fee_uid (GRAPHENE_CORE_ASSET_AID : asset_aid_type)
    (self : generic_evaluator) (d : database) (account_uid : account_uid_type)
    (fee : fee_type) : generic_evaluator × Except failure Unit :=
  match d.get_account_by_uid account_uid with
  | .error e => (self, .error e)
  | .ok _ =>
    generic_evaluator.prepare_fee GRAPHENE_CORE_ASSET_AID
      { self with fee_paying_account := some account_uid } d fee

/-- The expression `d.get_core_asset().dynamic_data(d)`: the key of the dynamic data
record of the core asset. -/
def database.core_dynamic_data_id (GRAPHENE_CORE_ASSET_AID : asset_aid_type)
    (d : database) : Except failure object_id_type :=
  match d.get_asset_by_aid GRAPHENE_CORE_ASSET_AID with
  | .error e => .error e
  | .ok core =>
    match d.asset_dynamic_data core.dynamic_asset_data_id with
    | none => .error .object_not_found
    | some _ => .ok core.dynamic_asset_data_id

/-- `generic_evaluator::process_fee_options`.  The database returned is the one
reached when the function returns or throws. -/
def generic_evaluator.process_fee_options (GRAPHENE_CORE_ASSET_AID : asset_aid_type)
    (self : generic_evaluator) (d : database) : database × Except failure Unit :=
  if ¬ self.trx_state.skip_fee then
    match self.fee_paying_account_statistics with
    | none => (d, .error .null_dereference)
    | some uid =>
      match d.account_statistics uid with
      | none => (d, .error .null_dereference)
      | some stats =>
        if self.from_prepaid > 0 ∧ ¬ (stats.prepaid ≥ self.from_prepaid) then
          (d, .error .insufficient_prepaid)
        else if self.from_csaf > 0 ∧ ¬ (stats.csaf ≥ self.from_csaf) then
          (d, .error .insufficient_csaf)
        else
          let d1 := d.modify_account_statistics uid (fun s =>
            let s1 := if self.from_prepaid > 0
              then { s with prepaid := s.prepaid - self.from_prepaid } else s
            if self.from_csaf > 0 then { s1 with csaf := s1.csaf - self.from_csaf } else s1)
          match d1.core_dynamic_data_id GRAPHENE_CORE_ASSET_AID with
          | .error e => (d1, .error e)
          | .ok id =>
            (d1.modify_asset_dynamic_data id (fun o =>
              { o with current_supply :=
                  o.current_supply - (self.from_prepaid + self.from_balance) }), .ok ())
  else
    (d, .ok ())

/-- `generic_evaluator::db_adjust_balance(const account_id_type&, asset)`: the body is
`FC_THROW( "deprecated." )`, the adjustment itself is commented out. -/
def generic_evaluator.db_adjust_balance_id (_self : generic_evaluator) (d : database)
    (_fee_payer : object_id_type) (_fee_from_account : asset) :
    database × Except failure Unit :=
  (d, .error .deprecated)

/-- The five overloads of `prepare_fee`, each with its arguments. -/
inductive prepare_fee_call where
  | asset (fee : asset)
  | uid_asset (account_uid : account_uid_type) (fee : asset)
  | id_asset (account_id : object_id_type) (fee : asset)
  | fee_type (fee : fee_type)
  | uid_fee_type (account_uid : account_uid_type) (fee : fee_type)
  deriving DecidableEq, Repr

/-- One call of `prepare_fee` as a step on the evaluator and the ledger.  Every
overload holds the ledger as `const database&` or only looks an account up in it, so
the ledger reached, on return as on a throw, is the one the call started from. -/
def generic_evaluator.prepare_fee_step (GRAPHENE_CORE_ASSET_AID : asset_aid_type)
    (self : generic_evaluator) (d : database) :
    prepare_fee_call → (generic_evaluator × database) × Except failure Unit
  | .asset fee =>
    (((self.prepare_fee_asset GRAPHENE_CORE_ASSET_AID d fee).1, d),
      (self.prepare_fee_asset GRAPHENE_CORE_ASSET_AID d fee).2)
  | .uid_asset account_uid fee =>
    (((self.prepare_fee_uid_asset GRAPHENE_CORE_ASSET_AID d account_uid fee).1, d),
      (self.prepare_fee_uid_asset GRAPHENE_CORE_ASSET_AID d account_uid fee).2)
  | .id_asset account_id fee =>
    (((self.prepare_fee_id_asset GRAPHENE_CORE_ASSET_AID d account_id fee).1, d),
      (self.prepare_fee_id_asset GRAPHENE_CORE_ASSET_AID d account_id fee).2)
  | .fee_type fee =>
    (((self.prepare_fee GRAPHENE_CORE_ASSET_AID d fee).1, d),
      (self.prepare_fee GRAPHENE_CORE_ASSET_AID d fee).2)
  | .uid_fee_type account_uid fee =>
    (((self.prepare_fee_uid GRAPHENE_CORE_ASSET_AID d account_uid fee).1, d),
      (self.prepare_fee_uid GRAPHENE_CORE_ASSET_AID d account_uid fee).2)

abbrev signature_type := Nat

/-- The signature information `verify_authority` resolves; its declaration is outside
the embedded files, and only its default, empty value matters here. -/
structure signed_information where
  entries : List (public_key_type × signature_type) := []
  deriving DecidableEq, Repr

/-- The statement `map[key] = value` on a `flat_map`, kept in ascending order of its
keys: the value of a present key is replaced, an absent key is inserted. -/
def flat_map_assign {V : Type} : List (Nat × V) → Nat → V → List (Nat × V)
  | [], k, v => [(k, v)]
  | (k', v') :: m, k, v =>
    if k < k' then (k, v) :: (k', v') :: m
    else if k = k' then (k, v) :: m
    else (k', v') :: flat_map_assign m k v

/-- The arguments of one call of `verify_authority`, in the order of the call. -/
structure verify_authority_arguments where
  ops : List operation
  sigs : List (public_key_type × signature_type)
  get_owner_by_uid : account_uid_type → Except failure authority
  get_active_by_uid : account_uid_type → Except failure authority
  get_secondary_by_uid : account_uid_type → Except failure authority
  enabled_hardfork : Bool
  max_recursion_depth : Nat
  allow_committe : Bool
  owner_uid_approvals : List account_uid_type
  active_uid_approvals : List account_uid_type
  secondary_uid_approvals : List account_uid_type

/-! ## Transfers (`protocol/transfer.hpp`) -/

/-- The extension of a transfer: which pools the amount is taken from and put to. -/
structure transfer_operation.ext where
  from_balance : Option asset := none
  from_prepaid : Option asset := none
  to_balance : Option asset := none
  to_prepaid : Option asset := none
  sign_platform : Option account_uid_type := none
  deriving DecidableEq, Repr

/-- The members of `transfer_operation` the embedded code reads. -/
structure transfer_operation where
  fee : fee_type
  «from» : account_uid_type
  «to» : account_uid_type
  amount : asset
  extensions : Option transfer_operation.ext
  deriving DecidableEq, Repr

/-- `transfer_operation::some_from_balance`. -/
def transfer_operation.some_from_balance (self : transfer_operation) : Bool :=
  match self.extensions with
  | none => true
  | some value =>
    match value.from_balance with
    | none => false
    | some from_balance => decide (from_balance.amount > 0)

/-- `transfer_operation::get_required_active_uid_authorities`. -/
def transfer_operation.get_required_active_uid_authorities (self : transfer_operation)
    (a : Finset account_uid_type) (_enabled_hardfork : Bool) : Finset account_uid_type :=
  if self.some_from_balance then insert self.«from» a else a

/-- `transfer_operation::get_required_secondary_uid_authorities`. -/
def transfer_operation.get_required_secondary_uid_authorities (self : transfer_operation)
    (a : Finset account_uid_type) (_enabled_hardfork : Bool) : Finset account_uid_type :=
  if ¬ self.some_from_balance then insert self.«from» a else a

/-! ## Updates of proposals (`protocol/proposal.cpp`) -/

/-- The members of `proposal_update_operation`; each approval set is the list of its
members in iteration order. -/
structure proposal_update_operation where
  fee : fee_type
  fee_paying_account : account_uid_type
  proposal : proposal_id_type
  secondary_approvals_to_add : List account_uid_type
  secondary_approvals_to_remove : List account_uid_type
  active_approvals_to_add : List account_uid_type
  active_approvals_to_remove : List account_uid_type
  owner_approvals_to_add : List account_uid_type
  owner_approvals_to_remove : List account_uid_type
  key_approvals_to_add : List public_key_type
  key_approvals_to_remove : List public_key_type
  deriving DecidableEq, Repr

/-- One loop of `proposal_update_operation::validate`: for each member of the set to
add, in order, assert that it is not found in the set to remove. -/
def assert_none_removed (to_remove : List Nat) : List Nat → Except failure Unit
  | [] => .ok ()
  | a :: rest =>
    if ¬ (a ∉ to_remove) then .error .add_and_remove_approval
    else assert_none_removed to_remove rest

/-- `proposal_update_operation::validate`, over the two validation helpers it calls
first, which are not among the embedded files. -/
def proposal_update_operation.validate
    (validate_op_fee : fee_type → Except failure Unit)
    (validate_account_uid : account_uid_type → Except failure Unit)
    (self : proposal_update_operation) : Except failure Unit :=
  match validate_op_fee self.fee with
  | .error e => .error e
  | .ok _ =>
    match validate_account_uid self.fee_paying_account with
    | .error e => .error e
    | .ok _ =>
      if ¬ ¬ (self.secondary_approvals_to_add.isEmpty && self.secondary_approvals_to_remove.isEmpty &&
              self.active_approvals_to_add.isEmpty && self.active_approvals_to_remove.isEmpty &&
              self.owner_approvals_to_add.isEmpty && self.owner_approvals_to_remove.isEmpty &&
              self.key_approvals_to_add.isEmpty && self.key_approvals_to_remove.isEmpty) then
        .error .no_approval_change
      else
        match assert_none_removed self.secondary_approvals_to_remove
            self.secondary_approvals_to_add with
        | .error e => .error e
        | .ok _ =>
          match assert_none_removed self.active_approvals_to_remove
              self.active_approvals_to_add with
          | .error e => .error e
          | .ok _ =>
            match assert_none_removed self.owner_approvals_to_remove
                self.owner_approvals_to_add with
            | .error e => .error e
            | .ok _ =>
              assert_none_removed self.key_approvals_to_remove self.key_approvals_to_add

/-- `proposal_update_operation::get_required_authorities`: the vector `o` with the key
authority appended when it has a key. -/
def proposal_update_operation.get_required_authorities (self : proposal_update_operation)
    (o : List authority) : List authority :=
  let auth : authority := {}
  let auth1 : authority :=
    self.key_approvals_to_add.foldl
      (fun auth k => { auth with key_auths := flat_map_assign auth.key_auths k 1 }) auth
  let auth2 : authority :=
    self.key_approvals_to_remove.foldl
      (fun auth k => { auth with key_auths := flat_map_assign auth.key_auths k 1 }) auth1
  let auth3 : authority := { auth2 with weight_threshold := auth2.key_auths.length }
  if auth3.key_auths.length > 0 then o ++ [auth3] else o

/-- `proposal_update_operation::get_required_secondary_uid_authorities`. -/
def proposal_update_operation.get_required_secondary_uid_authorities
    (self : proposal_update_operation) (a : Finset account_uid_type)
    (_enabled_hardfork : Bool) : Finset account_uid_type :=
  let a1 := self.secondary_approvals_to_add.foldl (fun a i => insert i a) a
  self.secondary_approvals_to_remove.foldl (fun a i => insert i a) a1

/-- `proposal_update_operation::get_required_active_uid_authorities`. -/
def proposal_update_operation.get_required_active_uid_authorities
    (self : proposal_update_operation) (a : Finset account_uid_type)
    (enabled_hardfork : Bool) : Finset account_uid_type :=
  let a1 := self.active_approvals_to_add.foldl (fun a i => insert i a) a
  let a2 := self.active_approvals_to_remove.foldl (fun a i => insert i a) a1
  if enabled_hardfork then insert self.fee_paying_account a2 else a2

/-- `proposal_update_operation::get_required_owner_uid_authorities`. -/
def proposal_update_operation.get_required_owner_uid_authorities
    (self : proposal_update_operation) (a : Finset account_uid_type)
    (_enabled_hardfork : Bool) : Finset account_uid_type :=
  let a1 := self.owner_approvals_to_add.foldl (fun a i => insert i a) a
  self.owner_approvals_to_remove.foldl (fun a i => insert i a) a1

/-! ## The account-to-proposal index (`proposal_object.cpp`) -/

/-- The members of `proposal_object` the index code reads; each approval set is the
list of its members in iteration order. -/
structure proposal_object where
  id : proposal_id_type
  required_secondary_approvals : List account_uid_type
  required_active_approvals : List account_uid_type
  required_owner_approvals : List account_uid_type
  available_secondary_approvals : List account_uid_type
  available_active_approvals : List account_uid_type
  available_owner_approvals : List account_uid_type
  available_key_approvals : List public_key_type
  proposed_transaction : transaction := {}
  deriving DecidableEq

/-- The arguments `proposal_object::is_authorized_to_execute` hands to
`verify_authority`: the signature map built from `available_key_approvals` with a
blank signature for each key, the three authority lookups into the ledger, the
hardfork flag, the maximum authority depth, `true` for the committee, and the three
available approval sets. -/
def proposal_object.verify_authority_call (ENABLE_HEAD_FORK_04 : Nat)
    (self : proposal_object) (db : database) : verify_authority_arguments :=
  let st : signature_type := 0
  let map : List (public_key_type × signature_type) :=
    self.available_key_approvals.foldl (fun m key => flat_map_assign m key st) []
  let enable_hardfork_04 : Bool := decide (db.enabled_hardfork_version ≥ ENABLE_HEAD_FORK_04)
  { ops := self.proposed_transaction.operations
    sigs := map
    get_owner_by_uid := fun uid => (db.get_account_by_uid uid).map (fun a => a.owner)
    get_active_by_uid := fun uid => (db.get_account_by_uid uid).map (fun a => a.active)
    get_secondary_by_uid := fun uid => (db.get_account_by_uid uid).map (fun a => a.secondary)
    enabled_hardfork := enable_hardfork_04
    max_recursion_depth := db.max_authority_depth
    allow_committe := true
    owner_uid_approvals := self.available_owner_approvals
    active_uid_approvals := self.available_active_approvals
    secondary_uid_approvals := self.available_secondary_approvals }

/-- `proposal_object::is_authorized_to_execute`, over `verify_authority`: a throw of
the verification is caught and answered with `false` and the signature information as
default-constructed. -/
def proposal_object.is_authorized_to_execute (ENABLE_HEAD_FORK_04 : Nat)
    (verify_authority : verify_authority_arguments → Except failure signed_information)
    (self : proposal_object) (db : database) : database × (Bool × signed_information) :=
  let sigs : signed_information := {}
  match verify_authority (self.verify_authority_call ENABLE_HEAD_FORK_04 db) with
  | .error _ => (db, (false, sigs))
  | .ok verified => (db, (true, verified))

/-- The index: `_account_to_proposals`, a map from accounts to sets of proposal
identifiers.  An account is a key of the map when its entry is `some`. -/
structure required_approval_index where
  _account_to_proposals : account_uid_type → Option (Finset proposal_id_type)

/-- The index as constructed: no keys. -/
def required_approval_index.empty : required_approval_index :=
  { _account_to_proposals := fun _ => none }

/-- The bucket of an account, empty for an account that is not a key. -/
def required_approval_index.bucket (self : required_approval_index)
    (a : account_uid_type) : Finset proposal_id_type :=
  (self._account_to_proposals a).getD ∅

/-- The statement `_account_to_proposals[a].insert( p )`: `operator[]` makes an empty
bucket for a missing key, then the identifier is inserted. -/
def required_approval_index.insert_at (self : required_approval_index)
    (a : account_uid_type) (p : proposal_id_type) : required_approval_index :=
  { _account_to_proposals := fun u =>
      if u = a then some (insert p ((self._account_to_proposals a).getD ∅))
      else self._account_to_proposals u }

/-- `required_approval_index::object_inserted`: six loops, one per approval set. -/
def required_approval_index.object_inserted (self : required_approval_index)
    (p : proposal_object) : required_approval_index :=
  let s1 := p.required_secondary_approvals.foldl (fun s a => s.insert_at a p.id) self
  let s2 := p.required_active_approvals.foldl (fun s a => s.insert_at a p.id) s1
  let s3 := p.required_owner_approvals.foldl (fun s a => s.insert_at a p.id) s2
  let s4 := p.available_secondary_approvals.foldl (fun s a => s.insert_at a p.id) s3
  let s5 := p.available_active_approvals.foldl (fun s a => s.insert_at a p.id) s4
  p.available_owner_approvals.foldl (fun s a => s.insert_at a p.id) s5

/-- `required_approval_index::remove`. -/
def required_approval_index.remove (self : required_approval_index)
    (a : account_uid_type) (p : proposal_id_type) : required_approval_index :=
  match self._account_to_proposals a with
  | none => self
  | some bucket =>
    if bucket.erase p = ∅ then
      { _account_to_proposals := fun u => if u = a then none else self._account_to_proposals u }
    else
      { _account_to_proposals := fun u =>
          if u = a then some (bucket.erase p) else self._account_to_proposals u }

/-- `required_approval_index::object_removed`: six loops, one per approval set. -/
def required_approval_index.object_removed (self : required_approval_index)
    (p : proposal_object) : required_approval_index :=
  let s1 := p.required_secondary_approvals.foldl (fun s a => s.remove a p.id) self
  let s2 := p.required_active_approvals.foldl (fun s a => s.remove a p.id) s1
  let s3 := p.required_owner_approvals.foldl (fun s a => s.remove a p.id) s2
  let s4 := p.available_secondary_approvals.foldl (fun s a => s.remove a p.id) s3
  let s5 := p.available_active_approvals.foldl (fun s a => s.remove a p.id) s4
  p.available_owner_approvals.foldl (fun s a => s.remove a p.id) s5

/-- Whether account `a` is a member of one of the six approval sets of `p`. -/
def proposal_object.references (p : proposal_object) (a : account_uid_type) : Prop :=
  a ∈ p.required_secondary_approvals ∨ a ∈ p.required_active_approvals ∨
  a ∈ p.required_owner_approvals ∨ a ∈ p.available_secondary_approvals ∨
  a ∈ p.available_active_approvals ∨ a ∈ p.available_owner_approvals

instance (p : proposal_object) (a : account_uid_type) : Decidable (p.references a) := by
  unfold proposal_object.references; infer_instance

/-- A notification the proposal store sends to the index. -/
inductive index_call where
  | object_inserted (p : proposal_object)
  | object_removed (p : proposal_object)
  deriving DecidableEq

/-- The index after one notification. -/
def required_approval_index.notify (self : required_approval_index) :
    index_call → required_approval_index
  | .object_inserted p => self.object_inserted p
  | .object_removed p => self.object_removed p

/-- Whether two proposals have the same six approval sets. -/
def proposal_object.same_approval_sets (p q : proposal_object) : Prop :=
  p.required_secondary_approvals = q.required_secondary_approvals ∧
  p.required_active_approvals = q.required_active_approvals ∧
  p.required_owner_approvals = q.required_owner_approvals ∧
  p.available_secondary_approvals = q.available_secondary_approvals ∧
  p.available_active_approvals = q.available_active_approvals ∧
  p.available_owner_approvals = q.available_owner_approvals

instance (p q : proposal_object) : Decidable (p.same_approval_sets q) := by
  unfold proposal_object.same_approval_sets; infer_instance

/-- The live proposals after one notification, in order of insertion: an inserted
proposal joins them, a removed proposal leaves them, found by its identifier. -/
def live_after (live : List proposal_object) : index_call → List proposal_object
  | .object_inserted p => live ++ [p]
  | .object_removed p => live.filter (fun q => q.id != p.id)

/-- A sequence of notifications the proposal store can send when `live` are its
proposals: an inserted proposal has an identifier no live proposal has, and a removed
proposal has the identifier and the six approval sets of a live one. -/
def well_formed_calls : List proposal_object → List index_call → Bool
  | _, [] => true
  | live, .object_inserted p :: cs =>
    live.all (fun q => q.id != p.id) && well_formed_calls (live ++ [p]) cs
  | live, .object_removed p :: cs =>
    live.any (fun q => q.id == p.id && decide (q.same_approval_sets p))
      && well_formed_calls (live.filter (fun q => q.id != p.id)) cs

/-- The index rebuilt from scratch: every live proposal inserted into an empty index. -/
def rebuild_index (live : List proposal_object) : required_approval_index :=
  live.foldl (fun s p => s.object_inserted p) required_approval_index.empty

/-! ## Sample data -/

/-- A small ledger: accounts 7 and 8, the core asset 0 with its dynamic data, no polls. -/
def sample_ledger : database :=
  { head_block_time := 1000
    custom_vote_effective_time := 86400
    accounts := fun u => if u = 7 ∨ u = 8 then some { uid := u } else none
    accounts_by_id := fun i => if i = 0 then some { uid := 7 } else if i = 1 then some { uid := 8 } else none
    account_statistics := fun u =>
      if u = 7 then
        some { last_custom_vote_sequence := 0, prepaid := 50, csaf := 30,
               core_balance_votes := 150 }
      else if u = 8 then
        some { last_custom_vote_sequence := 0, prepaid := 0, csaf := 0,
               core_balance_votes := 99 }
      else none
    assets := fun a =>
      if a = 0 then some { asset_id := 0, max_supply := 1000000, dynamic_asset_data_id := 0 }
      else none
    asset_dynamic_data := fun i =>
      if i = 0 then some { asset_id := 0, current_supply := 1000, accumulated_fees := 0 }
      else none
    custom_votes := []
    next_custom_vote_id := 0 }

/-- The creation of the poll of the lifecycle scenario: sequence number 1, three
options, one or two selections, expiry one hour ahead, required stake 100. -/
def sample_create : custom_vote_create_operation :=
  { custom_vote_creator := 7, vote_vid := 1, title := "t", description := "d",
    vote_expired_time := 4600, vote_asset_id := 0, required_asset_amount := 100,
    minimum_selected_items := 1, maximum_selected_items := 2, options := ["x", "y", "z"] }

/-- The fee of the fee-split scenario: a total of 40, all of it from prepaid. -/
def sample_fee_from_prepaid (n : share_type) : fee_type :=
  { total := { amount := n, asset_id := 0 }
    options := some { from_balance := none
                      from_prepaid := some { amount := n, asset_id := 0 }
                      from_csaf := some { amount := 0, asset_id := 0 } } }

/-- A fee denominated throughout in asset 1, paid from prepaid. -/
def sample_fee_other_asset : fee_type :=
  { total := { amount := 40, asset_id := 1 }
    options := some { from_balance := none
                      from_prepaid := some { amount := 40, asset_id := 1 }
                      from_csaf := none } }

/-- A fee whose total is in asset 1 while its balance portion is in the core asset. -/
def sample_fee_other_total : fee_type :=
  { total := { amount := 40, asset_id := 1 }
    options := some { from_balance := some { amount := 40, asset_id := 0 }
                      from_prepaid := none
                      from_csaf := none } }

/-- A fee with a negative prepaid portion. -/
def sample_fee_negative_prepaid : fee_type :=
  { total := { amount := 35, asset_id := 0 }
    options := some { from_balance := some { amount := 40, asset_id := 0 }
                      from_prepaid := some { amount := -5, asset_id := 0 }
                      from_csaf := none } }

/-- A fee of 40 with options, the whole of it claimed from csaf. -/
def sample_fee_from_csaf_40 : fee_type :=
  { total := { amount := 40, asset_id := 0 }
    options := some { from_balance := none
                      from_prepaid := none
                      from_csaf := some { amount := 40, asset_id := 0 } } }

/-- The evaluator of an operation of a transaction that pays fees, before
`prepare_fee`. -/
def sample_evaluator : generic_evaluator :=
  generic_evaluator.fresh 0 { skip_fee := false }

/-- The asset of a fee portion that is drawn from the ordinary balance: the total of a
flat fee, the `from_balance` portion of a fee with options. -/
def fee_type.balance_portion (fee : fee_type) : Option asset :=
  match fee.options with
  | none => some fee.total
  | some fov => fov.from_balance

/-- A flat fee of 20 units of the core asset. -/
def sample_fee_flat : fee_type :=
  { total := { amount := 20, asset_id := 0 }, options := none }

/-- The evaluator after `prepare_fee` for payer 7 on `d` with fee `fee`. -/
def sample_prepared (d : database) (fee : fee_type) : generic_evaluator :=
  (generic_evaluator.prepare_fee_uid 0 sample_evaluator d 7 fee).1

/-- The sample ledger after the sample creation: account 7 has the poll numbered 1. -/
def sample_ledger_with_poll : database :=
  (run_custom_vote_create 500 sample_ledger sample_create).1

/-- The sample ledger after a creation whose selection bounds are 3 and 2. -/
def sample_ledger_with_crossed_poll : database :=
  (run_custom_vote_create 500 sample_ledger
    { sample_create with minimum_selected_items := 3, maximum_selected_items := 2 }).1

/-- A ballot of account 7 on the poll numbered 1 of account 7. -/
def sample_cast (selected : Finset Nat) : custom_vote_cast_operation :=
  { voter := 7, custom_vote_creator := 7, custom_vote_vid := 1, vote_result := selected }

/-- The poll the sample creation stores. -/
def sample_poll : custom_vote_object :=
  { id := 0, custom_vote_creator := 7, vote_vid := 1, title := "t", description := "d",
    vote_expired_time := 4600, vote_asset_id := 0, required_asset_amount := 100,
    minimum_selected_items := 1, maximum_selected_items := 2,
    options := ["x", "y", "z"], vote_result := [0, 0, 0] }

/-- The statistics record of account 7 once it has created its first poll. -/
def sample_voter_statistics : _account_statistics_object :=
  { last_custom_vote_sequence := 1, prepaid := 50, csaf := 30, core_balance_votes := 150 }

/-- No key of the index has an empty bucket. -/
def required_approval_index.no_empty_bucket (self : required_approval_index) : Prop :=
  ∀ a b, self._account_to_proposals a = some b → b.Nonempty

/-- Two proposals with overlapping approval sets, for exercising the index. -/
def sample_proposal_1 : proposal_object :=
  { id := 1, required_secondary_approvals := [], required_active_approvals := [7, 8],
    required_owner_approvals := [], available_secondary_approvals := [],
    available_active_approvals := [7], available_owner_approvals := [9],
    available_key_approvals := [] }

/-- The second sample proposal. -/
def sample_proposal_2 : proposal_object :=
  { id := 2, required_secondary_approvals := [8], required_active_approvals := [],
    required_owner_approvals := [10], available_secondary_approvals := [],
    available_active_approvals := [], available_owner_approvals := [],
    available_key_approvals := [] }

/-- Insert both sample proposals, then remove the first. -/
def sample_calls : List index_call :=
  [.object_inserted sample_proposal_1, .object_inserted sample_proposal_2,
   .object_removed sample_proposal_1]

/-- The sample ledger with its poll, at head block time `t`. -/
def sample_ledger_with_poll_at (t : time_point_sec) : database :=
  { sample_ledger_with_poll with head_block_time := t }

/-- A ballot of account 8, whose stake is 99, on the poll numbered 1 of account 7. -/
def sample_cast_low_stake (selected : Finset Nat) : custom_vote_cast_operation :=
  { voter := 8, custom_vote_creator := 7, custom_vote_vid := 1, vote_result := selected }

/-- The sample ledger with its poll and the stake of account 8 set to `n`. -/
def sample_ledger_with_stake (n : share_type) : database :=
  { sample_ledger_with_poll with
    account_statistics := fun u =>
      if u = 8 then
        some { last_custom_vote_sequence := 0, prepaid := 0, csaf := 0,
               core_balance_votes := n }
      else sample_ledger_with_poll.account_statistics u }

/-- The evaluator prepared for a prepaid portion of 60, in a fee-exempt transaction. -/
def sample_prepared_exempt : generic_evaluator :=
  { sample_prepared sample_ledger (sample_fee_from_prepaid 60) with
    trx_state := { skip_fee := true } }

/-- A fee of 40 with options that name a balance portion of 10 only. -/
def sample_fee_short_split : fee_type :=
  { total := { amount := 40, asset_id := 0 }
    options := some { from_balance := some { amount := 10, asset_id := 0 }
                      from_prepaid := none
                      from_csaf := none } }

/-- The amount of an optional fee portion, zero when the portion is absent. -/
def portion_amount (a : Option asset) : share_type :=
  match a with
  | some x => x.amount
  | none => 0

/-- A stand-in for `verify_authority` that is satisfied by an active approval of
account 7 and then reports the signatures it was given. -/
def sample_verify_authority (args : verify_authority_arguments) :
    Except failure signed_information :=
  if 7 ∈ args.active_uid_approvals then .ok { entries := args.sigs }
  else .error .authority_not_satisfied

/-- A proposal approved by account 7 and by the keys 5 and 3. -/
def sample_proposal_approved : proposal_object :=
  { sample_proposal_1 with available_key_approvals := [5, 3, 5] }

/-- A proposal without the active approval of account 7. -/
def sample_proposal_pending : proposal_object :=
  { sample_proposal_2 with available_key_approvals := [5] }

/-- A transfer of 10 from account 7 to account 8 with the given extension. -/
def sample_transfer (extensions : Option transfer_operation.ext) : transfer_operation :=
  { fee := sample_fee_flat, «from» := 7, «to» := 8, amount := { amount := 10, asset_id := 0 },
    extensions := extensions }

/-- The core asset of the sample ledger, with maximum supply 1000000. -/
def sample_core_asset : asset_object :=
  { asset_id := 0, max_supply := 1000000, dynamic_asset_data_id := 0 }

/-- An update of proposal 1 paid by account 7: it adds the active approval of account
8, removes the owner approval of account 9, adds the keys 5 and 3 and removes the keys
9 and 5. -/
def sample_update : proposal_update_operation :=
  { fee := sample_fee_flat, fee_paying_account := 7, proposal := 1,
    secondary_approvals_to_add := [], secondary_approvals_to_remove := [],
    active_approvals_to_add := [8], active_approvals_to_remove := [],
    owner_approvals_to_add := [], owner_approvals_to_remove := [9],
    key_approvals_to_add := [5, 3], key_approvals_to_remove := [9, 5] }

/-- A fee validation that accepts every fee, for exercising `validate`. -/
def sample_validate_op_fee (_fee : fee_type) : Except failure Unit := .ok ()

/-- An account validation that accepts every account, for exercising `validate`. -/
def sample_validate_account_uid (_uid : account_uid_type) : Except failure Unit := .ok ()

/-- The sample ledger after a creation whose minimum number of selections is 0. -/
def sample_ledger_with_open_poll : database :=
  (run_custom_vote_create 500 sample_ledger
    { sample_create with minimum_selected_items := 0 }).1

/-- A flat fee of a negative amount of the core asset. -/
def sample_fee_negative (n : share_type) : fee_type :=
  { total := { amount := -n, asset_id := 0 }, options := none }

/-! # Properties -/

/-! ## Creation of custom votes -/

/-- What a successful `do_evaluate` of a creation amounts to. -/
theorem create_do_evaluate_ok_iff (H : time_point_sec) (self ev : custom_vote_create_evaluator)
    (d : database) (op : custom_vote_create_operation) (r : void_result) :
    custom_vote_create_evaluator.do_evaluate H self d op = (ev, .ok r) ↔
      (H ≤ d.head_block_time ∧ (d.accounts op.custom_vote_creator).isSome ∧
        (∃ s, d.account_statistics op.custom_vote_creator = some s ∧
          s.last_custom_vote_sequence + 1 = op.vote_vid) ∧
        (d.assets op.vote_asset_id).isSome ∧
        d.head_block_time < op.vote_expired_time ∧
        op.vote_expired_time < d.head_block_time + d.custom_vote_effective_time ∧
        ev = { self with account_stats := some op.custom_vote_creator }) := by
  unfold custom_vote_create_evaluator.do_evaluate database.get_account_by_uid
    database.get_account_statistics_by_uid database.get_asset_by_aid
  by_cases hH : H ≤ d.head_block_time
  · cases ha : d.accounts op.custom_vote_creator with
    | none => simp [hH]
    | some a =>
      cases hs : d.account_statistics op.custom_vote_creator with
      | none => simp [hH]
      | some s =>
        by_cases hv : s.last_custom_vote_sequence + 1 = op.vote_vid
        · cases hx : d.assets op.vote_asset_id with
          | none => simp [hH, hv]
          | some x =>
            by_cases ht : d.head_block_time < op.vote_expired_time ∧
                op.vote_expired_time < d.head_block_time + d.custom_vote_effective_time
            · simp [hH, hv, ht]
              exact eq_comm
            · simp only [ge_iff_le, hH, not_true_eq_false, if_false, hv, gt_iff_lt, ht,
                not_false_eq_true, if_true]
              simp
              intro _ h1 h2
              exact absurd ⟨h1, h2⟩ ht
        · simp [hH, hv]
  · simp [hH]

/-- What `do_apply` of a creation does once `account_stats` points to a stored record. -/
theorem create_do_apply_eq (ev : custom_vote_create_evaluator) (d : database)
    (op : custom_vote_create_operation) (c : account_uid_type)
    (s : _account_statistics_object) (hev : ev.account_stats = some c)
    (hs : d.account_statistics c = some s) :
    ev.do_apply d op =
      ({ d with
          custom_votes := d.custom_votes ++
            [{ id := d.next_custom_vote_id
               custom_vote_creator := op.custom_vote_creator
               vote_vid := op.vote_vid
               title := op.title
               description := op.description
               vote_expired_time := op.vote_expired_time
               vote_asset_id := op.vote_asset_id
               required_asset_amount := op.required_asset_amount
               minimum_selected_items := op.minimum_selected_items
               maximum_selected_items := op.maximum_selected_items
               options := op.options
               vote_result := List.replicate op.options.length 0 }]
          next_custom_vote_id := d.next_custom_vote_id + 1
          account_statistics := fun u =>
            if u = c then
              (d.account_statistics u).map (fun s =>
                { s with last_custom_vote_sequence := s.last_custom_vote_sequence + 1 })
            else d.account_statistics u },
       .ok d.next_custom_vote_id) := by
  simp [custom_vote_create_evaluator.do_apply, database.create_custom_vote,
    database.modify_account_statistics, resize, hev, hs]

/-- A rejected creation leaves the ledger as it was. -/
theorem run_custom_vote_create_of_error (H : time_point_sec) (d : database)
    (op : custom_vote_create_operation) (ev : custom_vote_create_evaluator) (e : failure)
    (h : custom_vote_create_evaluator.do_evaluate H {} d op = (ev, .error e)) :
    run_custom_vote_create H d op = (d, .error e) := by
  simp [run_custom_vote_create, h]

/-- The outcome of `do_evaluate` of a creation is a success or a failure. -/
theorem create_do_evaluate_cases (H : time_point_sec) (self : custom_vote_create_evaluator)
    (d : database) (op : custom_vote_create_operation) :
    (∃ ev e, custom_vote_create_evaluator.do_evaluate H self d op = (ev, .error e)) ∨
    (∃ ev r, custom_vote_create_evaluator.do_evaluate H self d op = (ev, .ok r)) := by
  rcases h : custom_vote_create_evaluator.do_evaluate H self d op with ⟨ev, e | r⟩
  · exact Or.inl ⟨ev, e, rfl⟩
  · exact Or.inr ⟨ev, r, rfl⟩

/-- A creation whose sequence number is not the successor of the creator's counter
fails evaluation, from any evaluator state. -/
theorem create_do_evaluate_wrong_vid (H : time_point_sec) (self : custom_vote_create_evaluator)
    (d : database) (op : custom_vote_create_operation)
    (h : op.vote_vid ≠ d.last_custom_vote_sequence op.custom_vote_creator + 1) :
    ∃ ev e, custom_vote_create_evaluator.do_evaluate H self d op = (ev, .error e) := by
  rcases create_do_evaluate_cases H self d op with hc | ⟨ev, r, hc⟩
  · exact hc
  · exfalso
    obtain ⟨_, _, ⟨s, hs, hv⟩, _⟩ := (create_do_evaluate_ok_iff H self ev d op r).mp hc
    apply h
    simp [database.last_custom_vote_sequence, hs, hv]

/-- C2: a `custom_vote_create_operation` whose `vote_vid` differs from the creator's
`last_custom_vote_sequence + 1`, be it smaller or larger, is rejected by `do_evaluate`
in every ledger state and from every evaluator state, and the run of the operation
leaves the ledger unchanged. -/
theorem custom_vote_create_rejects_wrong_sequence (H : time_point_sec)
    (self : custom_vote_create_evaluator) (d : database) (op : custom_vote_create_operation)
    (h : op.vote_vid ≠ d.last_custom_vote_sequence op.custom_vote_creator + 1) :
    (custom_vote_create_evaluator.do_evaluate H self d op).2.isOk = false ∧
    (run_custom_vote_create H d op).1 = d ∧
    (run_custom_vote_create H d op).2.isOk = false := by
  obtain ⟨ev, e, he⟩ := create_do_evaluate_wrong_vid H self d op h
  obtain ⟨ev0, e0, he0⟩ := create_do_evaluate_wrong_vid H {} d op h
  rw [he, run_custom_vote_create_of_error H d op ev0 e0 he0]
  exact ⟨rfl, rfl, rfl⟩

/-- A future sequence number (3) on the sample ledger, where the creator's counter is
0, is rejected, and the sequence number 1 passes. -/
theorem custom_vote_create_rejects_wrong_sequence_witness :
    ((custom_vote_create_evaluator.do_evaluate 500 {} sample_ledger
        { sample_create with vote_vid := 3 }).2.isOk = false ∧
      (run_custom_vote_create 500 sample_ledger { sample_create with vote_vid := 3 }).1
        = sample_ledger ∧
      (run_custom_vote_create 500 sample_ledger
        { sample_create with vote_vid := 3 }).2.isOk = false) ∧
    (custom_vote_create_evaluator.do_evaluate 500 {} sample_ledger sample_create).2.isOk
      = true :=
  ⟨custom_vote_create_rejects_wrong_sequence 500 {} sample_ledger
      { sample_create with vote_vid := 3 } (by decide), by decide⟩

/-- C9: with the hardfork reached, the creator and its statistics record present, the
sequence number right and the asset present, `do_evaluate` of a creation succeeds
exactly when the expiry lies strictly between the head block time and the head block
time plus `custom_vote_effective_time`; otherwise it fails on the expiry check. -/
theorem custom_vote_create_expiry_window (H : time_point_sec)
    (self : custom_vote_create_evaluator) (d : database) (op : custom_vote_create_operation)
    (hH : H ≤ d.head_block_time)
    (ha : (d.accounts op.custom_vote_creator).isSome = true)
    (hs : (d.account_statistics op.custom_vote_creator).isSome = true)
    (hv : op.vote_vid = d.last_custom_vote_sequence op.custom_vote_creator + 1)
    (hx : (d.assets op.vote_asset_id).isSome = true) :
    ((custom_vote_create_evaluator.do_evaluate H self d op).2 = .ok {} ↔
      (d.head_block_time < op.vote_expired_time ∧
        op.vote_expired_time < d.head_block_time + d.custom_vote_effective_time)) ∧
    (¬ (d.head_block_time < op.vote_expired_time ∧
        op.vote_expired_time < d.head_block_time + d.custom_vote_effective_time) →
      (custom_vote_create_evaluator.do_evaluate H self d op).2
        = .error .vote_expired_time_out_of_range) := by
  obtain ⟨a, ha⟩ := Option.isSome_iff_exists.mp ha
  obtain ⟨st, hst⟩ := Option.isSome_iff_exists.mp hs
  obtain ⟨x, hx⟩ := Option.isSome_iff_exists.mp hx
  have hv2 : st.last_custom_vote_sequence + 1 = op.vote_vid := by
    simp [database.last_custom_vote_sequence, hst] at hv
    exact hv.symm
  unfold custom_vote_create_evaluator.do_evaluate database.get_account_by_uid
    database.get_account_statistics_by_uid database.get_asset_by_aid
  by_cases ht : d.head_block_time < op.vote_expired_time ∧
      op.vote_expired_time < d.head_block_time + d.custom_vote_effective_time
  · simp [hH, ha, hst, hv2, hx, ht]
  · simp only [ge_iff_le, hH, not_true_eq_false, if_false, ha, hst, hv2, hx, gt_iff_lt, ht,
      not_false_eq_true, if_true]
    simp

/-- On the sample ledger (head block time 1000, window 86400): expiry 4600 is inside
the window, expiry 1000 and expiry 87400 are on its two ends. -/
theorem custom_vote_create_expiry_window_witness :
    ((custom_vote_create_evaluator.do_evaluate 500 {} sample_ledger sample_create).2 = .ok {} ↔
      ((1000 : Nat) < 4600 ∧ (4600 : Nat) < 1000 + 86400)) ∧
    (custom_vote_create_evaluator.do_evaluate 500 {} sample_ledger
      { sample_create with vote_expired_time := 1000 }).2
        = .error .vote_expired_time_out_of_range ∧
    (custom_vote_create_evaluator.do_evaluate 500 {} sample_ledger
      { sample_create with vote_expired_time := 87400 }).2
        = .error .vote_expired_time_out_of_range :=
  ⟨(custom_vote_create_expiry_window 500 {} sample_ledger sample_create
      (by decide) (by decide) (by decide) (by decide) (by decide)).1,
   (custom_vote_create_expiry_window 500 {} sample_ledger
      { sample_create with vote_expired_time := 1000 }
      (by decide) (by decide) (by decide) (by decide) (by decide)).2 (by decide),
   (custom_vote_create_expiry_window 500 {} sample_ledger
      { sample_create with vote_expired_time := 87400 }
      (by decide) (by decide) (by decide) (by decide) (by decide)).2 (by decide)⟩

/-- C8: after a successful `do_evaluate`, `do_apply` of the same evaluator on the same
ledger returns the identifier of a poll it appends to the stored polls; that poll
carries the operation's creator, sequence number, title, description, expiry, asset,
required amount, selection bounds and options, and a tally of `options.size()` zero
slots; the creator's counter goes up by one and nothing else in its record, in any
other record, in any stored poll or elsewhere in the ledger changes. -/
theorem custom_vote_create_do_apply_effect (H : time_point_sec)
    (self ev : custom_vote_create_evaluator) (d : database)
    (op : custom_vote_create_operation) (r : void_result)
    (hev : custom_vote_create_evaluator.do_evaluate H self d op = (ev, .ok r)) :
    (ev.do_apply d op).2 = .ok d.next_custom_vote_id ∧
    (ev.do_apply d op).1.custom_votes = d.custom_votes ++
      [{ id := d.next_custom_vote_id
         custom_vote_creator := op.custom_vote_creator
         vote_vid := op.vote_vid
         title := op.title
         description := op.description
         vote_expired_time := op.vote_expired_time
         vote_asset_id := op.vote_asset_id
         required_asset_amount := op.required_asset_amount
         minimum_selected_items := op.minimum_selected_items
         maximum_selected_items := op.maximum_selected_items
         options := op.options
         vote_result := List.replicate op.options.length 0 }] ∧
    (d.account_statistics op.custom_vote_creator).isSome = true ∧
    (ev.do_apply d op).1.account_statistics op.custom_vote_creator =
      (d.account_statistics op.custom_vote_creator).map (fun s =>
        { s with last_custom_vote_sequence := s.last_custom_vote_sequence + 1 }) ∧
    (∀ u, u ≠ op.custom_vote_creator →
      (ev.do_apply d op).1.account_statistics u = d.account_statistics u) ∧
    (ev.do_apply d op).1.accounts = d.accounts ∧
    (ev.do_apply d op).1.accounts_by_id = d.accounts_by_id ∧
    (ev.do_apply d op).1.assets = d.assets ∧
    (ev.do_apply d op).1.asset_dynamic_data = d.asset_dynamic_data ∧
    (ev.do_apply d op).1.head_block_time = d.head_block_time ∧
    (ev.do_apply d op).1.custom_vote_effective_time = d.custom_vote_effective_time ∧
    (ev.do_apply d op).1.enabled_hardfork_version = d.enabled_hardfork_version ∧
    (ev.do_apply d op).1.max_authority_depth = d.max_authority_depth := by
  obtain ⟨_, _, ⟨s, hs, _⟩, _, _, _, hself⟩ :=
    (create_do_evaluate_ok_iff H self ev d op r).mp hev
  have hp : ev.account_stats = some op.custom_vote_creator := by rw [hself]
  rw [create_do_apply_eq ev d op op.custom_vote_creator s hp hs]
  refine ⟨rfl, rfl, by simp [hs], by simp, ?_, rfl, rfl, rfl, rfl, rfl, rfl, rfl, rfl⟩
  intro u hu
  simp [hu]

/-- The sample creation on the sample ledger: the new poll has identifier 0 and the
tally `[0, 0, 0]`, and the creator's counter becomes 1. -/
theorem custom_vote_create_do_apply_effect_witness :
    (custom_vote_create_evaluator.do_evaluate 500 {} sample_ledger sample_create
      = ({ account_stats := some 7 }, .ok {})) ∧
    (custom_vote_create_evaluator.do_apply { account_stats := some 7 } sample_ledger
      sample_create).2 = .ok 0 ∧
    (custom_vote_create_evaluator.do_apply { account_stats := some 7 } sample_ledger
      sample_create).1.custom_votes =
      [{ id := 0, custom_vote_creator := 7, vote_vid := 1, title := "t", description := "d",
         vote_expired_time := 4600, vote_asset_id := 0, required_asset_amount := 100,
         minimum_selected_items := 1, maximum_selected_items := 2,
         options := ["x", "y", "z"], vote_result := [0, 0, 0] }] ∧
    (custom_vote_create_evaluator.do_apply { account_stats := some 7 } sample_ledger
      sample_create).1.account_statistics 7 =
      some { last_custom_vote_sequence := 1, prepaid := 50, csaf := 30,
             core_balance_votes := 150 } :=
  have h := custom_vote_create_do_apply_effect 500 {} { account_stats := some 7 }
    sample_ledger sample_create {} rfl
  ⟨rfl, h.1, h.2.1, h.2.2.2.1⟩

/-- The sequence numbers of a creator's polls after a successful creation. -/
theorem vote_vids_of_after_create (d : database) (c u : account_uid_type)
    (poll : custom_vote_object) (hc : poll.custom_vote_creator = c)
    (stats : account_uid_type → Option _account_statistics_object) (n : object_id_type) :
    database.vote_vids_of
      { d with custom_votes := d.custom_votes ++ [poll], next_custom_vote_id := n,
               account_statistics := stats } u =
      if u = c then d.vote_vids_of u ++ [poll.vote_vid] else d.vote_vids_of u := by
  unfold database.vote_vids_of
  by_cases huc : u = c
  · subst huc
    simp [List.filter_append, hc]
  · have : ¬ poll.custom_vote_creator = u := by
      rw [hc]
      exact fun h => huc h.symm
    simp [List.filter_append, huc, this]

/-- The numbering invariant: each account's polls carry, in order of creation, the
sequence numbers 1 up to that account's counter. -/
theorem numbering_preserved (H : time_point_sec) (d : database)
    (op : custom_vote_create_operation)
    (inv : ∀ u, d.vote_vids_of u = List.range' 1 (d.last_custom_vote_sequence u)) :
    ∀ u, (run_custom_vote_create H d op).1.vote_vids_of u =
      List.range' 1 ((run_custom_vote_create H d op).1.last_custom_vote_sequence u) := by
  rcases create_do_evaluate_cases H {} d op with ⟨ev, e, he⟩ | ⟨ev, r, hr⟩
  · rw [run_custom_vote_create_of_error H d op ev e he]
    exact inv
  · obtain ⟨_, _, ⟨s, hs, hv⟩, _, _, _, hself⟩ :=
      (create_do_evaluate_ok_iff H {} ev d op r).mp hr
    have hp : ev.account_stats = some op.custom_vote_creator := by rw [hself]
    have hrun : run_custom_vote_create H d op = ev.do_apply d op := by
      simp [run_custom_vote_create, hr]
    rw [hrun, create_do_apply_eq ev d op op.custom_vote_creator s hp hs]
    intro u
    rw [vote_vids_of_after_create d op.custom_vote_creator u _ rfl]
    by_cases huc : u = op.custom_vote_creator
    · subst huc
      have hlast : d.last_custom_vote_sequence op.custom_vote_creator
          = s.last_custom_vote_sequence := by
        simp [database.last_custom_vote_sequence, hs]
      simp only [if_true, inv, hlast]
      simp [database.last_custom_vote_sequence, hs, ← hv, List.range'_concat]
      exact Nat.add_comm _ _
    · simp only [huc, if_false, inv]
      simp [database.last_custom_vote_sequence, huc]

/-- C1: from a ledger with no polls and every counter at 0, after any sequence of
creations, each run as `do_evaluate` followed only on success by `do_apply`, the
sequence numbers of the polls of every account are, in order of creation, exactly
1, 2, ..., `last_custom_vote_sequence`: no gap, no repeat, and as many polls as the
counter has been advanced. -/
theorem custom_vote_numbering (H : time_point_sec) (d : database)
    (ops : List custom_vote_create_operation)
    (hpolls : d.custom_votes = [])
    (hzero : ∀ u, d.last_custom_vote_sequence u = 0) :
    ∀ u, (run_custom_vote_creates H d ops).vote_vids_of u =
      List.range' 1 ((run_custom_vote_creates H d ops).last_custom_vote_sequence u) := by
  have start : ∀ u, d.vote_vids_of u = List.range' 1 (d.last_custom_vote_sequence u) := by
    intro u
    simp [database.vote_vids_of, hpolls, hzero]
  clear hpolls hzero
  induction ops generalizing d with
  | nil => exact start
  | cons op ops ih =>
    exact ih (run_custom_vote_create H d op).1 (numbering_preserved H d op start)

/-- On the sample ledger: a creation numbered 1, a replay of it, a creation numbered 3
and one numbered 2 leave account 7 with the polls 1 and 2 and the counter 2. -/
theorem custom_vote_numbering_witness :
    sample_ledger.custom_votes = [] ∧
    (run_custom_vote_creates 500 sample_ledger
      [sample_create, sample_create, { sample_create with vote_vid := 3 },
       { sample_create with vote_vid := 2 }]).vote_vids_of 7 =
      List.range' 1 ((run_custom_vote_creates 500 sample_ledger
        [sample_create, sample_create, { sample_create with vote_vid := 3 },
         { sample_create with vote_vid := 2 }]).last_custom_vote_sequence 7) ∧
    (run_custom_vote_creates 500 sample_ledger
      [sample_create, sample_create, { sample_create with vote_vid := 3 },
       { sample_create with vote_vid := 2 }]).vote_vids_of 7 = [1, 2] :=
  ⟨rfl,
   custom_vote_numbering 500 sample_ledger
     [sample_create, sample_create, { sample_create with vote_vid := 3 },
      { sample_create with vote_vid := 2 }] rfl
     (by
       intro u
       simp only [database.last_custom_vote_sequence, sample_ledger]
       split_ifs <;> rfl) 7,
   by decide⟩

/-! ## Fees -/

/-- What a successful `process_fee_options` of a fee-paying transaction amounts to. -/
theorem process_fee_options_ok (CORE : asset_aid_type) (self : generic_evaluator)
    (d d' : database) (hskip : self.trx_state.skip_fee = false)
    (h : self.process_fee_options CORE d = (d', .ok ())) :
    ∃ uid st core o,
      self.fee_paying_account_statistics = some uid ∧
      d.account_statistics uid = some st ∧
      ¬ (self.from_prepaid > 0 ∧ ¬ (st.prepaid ≥ self.from_prepaid)) ∧
      ¬ (self.from_csaf > 0 ∧ ¬ (st.csaf ≥ self.from_csaf)) ∧
      d.assets CORE = some core ∧
      d.asset_dynamic_data core.dynamic_asset_data_id = some o ∧
      d' = (d.modify_account_statistics uid (fun s =>
              let s1 := if self.from_prepaid > 0
                then { s with prepaid := s.prepaid - self.from_prepaid } else s
              if self.from_csaf > 0 then { s1 with csaf := s1.csaf - self.from_csaf }
              else s1)).modify_asset_dynamic_data core.dynamic_asset_data_id (fun o =>
              { o with current_supply :=
                  o.current_supply - (self.from_prepaid + self.from_balance) }) := by
  unfold generic_evaluator.process_fee_options at h
  simp only [hskip, Bool.false_eq_true, not_false_eq_true, if_true] at h
  cases hp : self.fee_paying_account_statistics with
  | none => simp [hp] at h
  | some uid =>
    cases hs : d.account_statistics uid with
    | none => simp [hp, hs] at h
    | some st =>
      simp only [hp, hs] at h
      by_cases c1 : self.from_prepaid > 0 ∧ ¬ (st.prepaid ≥ self.from_prepaid)
      · simp [c1] at h
      · by_cases c2 : self.from_csaf > 0 ∧ ¬ (st.csaf ≥ self.from_csaf)
        · rw [if_neg c1, if_pos c2] at h
          simp at h
        · rw [if_neg c1, if_neg c2] at h
          unfold database.core_dynamic_data_id database.get_asset_by_aid at h
          simp only [database.modify_account_statistics] at h
          cases ha : d.assets CORE with
          | none => simp [ha] at h
          | some core =>
            cases ho : d.asset_dynamic_data core.dynamic_asset_data_id with
            | none => simp [ha, ho] at h
            | some o =>
              simp only [ha, ho] at h
              refine ⟨uid, st, core, o, rfl, hs, c1, c2, rfl, ho, ?_⟩
              simp only [Prod.mk.injEq, and_true] at h
              rw [← h]
              rfl

/-- The statistics record of the payer after a successful settlement. -/
theorem process_fee_options_statistics (CORE : asset_aid_type) (self : generic_evaluator)
    (d d' : database) (uid : account_uid_type) (st : _account_statistics_object)
    (hskip : self.trx_state.skip_fee = false)
    (hp : self.fee_paying_account_statistics = some uid)
    (hs : d.account_statistics uid = some st)
    (h : self.process_fee_options CORE d = (d', .ok ())) :
    ¬ (self.from_prepaid > 0 ∧ ¬ (st.prepaid ≥ self.from_prepaid)) ∧
    ¬ (self.from_csaf > 0 ∧ ¬ (st.csaf ≥ self.from_csaf)) ∧
    d'.account_statistics uid =
      some { st with prepaid := st.prepaid - max self.from_prepaid 0
                     csaf := st.csaf - max self.from_csaf 0 } := by
  obtain ⟨uid', st', core, o, hp', hs', c1, c2, _, _, hd⟩ :=
    process_fee_options_ok CORE self d d' hskip h
  rw [hp] at hp'
  cases hp'
  rw [hs] at hs'
  cases hs'
  refine ⟨c1, c2, ?_⟩
  rw [hd]
  simp only [database.modify_asset_dynamic_data, database.modify_account_statistics,
    if_true, hs, Option.map_some']
  by_cases q1 : self.from_prepaid > 0 <;> by_cases q2 : self.from_csaf > 0
  · simp [q1, q2, max_eq_left (le_of_lt q1), max_eq_left (le_of_lt q2)]
  · simp [q1, q2, max_eq_left (le_of_lt q1), max_eq_right (not_lt.mp q2)]
  · simp [q1, q2, max_eq_right (not_lt.mp q1), max_eq_left (le_of_lt q2)]
  · simp [q1, q2, max_eq_right (not_lt.mp q1), max_eq_right (not_lt.mp q2)]

/-- C5, as amended: whenever `process_fee_options` succeeds in a transaction that is
not fee-exempt, the payer's prepaid balance has gone down by `from_prepaid` when that
is positive and by nothing otherwise, likewise the csaf balance by `from_csaf`; so for
portions that are not negative the two differences are `from_prepaid` and `from_csaf`
exactly; and a balance that was not negative is not negative afterwards. -/
theorem process_fee_options_debits (CORE : asset_aid_type) (self : generic_evaluator)
    (d d' : database) (uid : account_uid_type) (st : _account_statistics_object)
    (hskip : self.trx_state.skip_fee = false)
    (hp : self.fee_paying_account_statistics = some uid)
    (hs : d.account_statistics uid = some st)
    (h : self.process_fee_options CORE d = (d', .ok ())) :
    ∃ st', d'.account_statistics uid = some st' ∧
      st.prepaid - st'.prepaid = max self.from_prepaid 0 ∧
      st.csaf - st'.csaf = max self.from_csaf 0 ∧
      (0 ≤ self.from_prepaid → st.prepaid - st'.prepaid = self.from_prepaid) ∧
      (0 ≤ self.from_csaf → st.csaf - st'.csaf = self.from_csaf) ∧
      (0 ≤ st.prepaid → 0 ≤ st'.prepaid) ∧
      (0 ≤ st.csaf → 0 ≤ st'.csaf) := by
  obtain ⟨c1, c2, hst⟩ := process_fee_options_statistics CORE self d d' uid st hskip hp hs h
  refine ⟨_, hst, ?_, ?_, ?_, ?_, ?_, ?_⟩
  · show st.prepaid - (st.prepaid - max self.from_prepaid 0) = max self.from_prepaid 0
    linarith
  · show st.csaf - (st.csaf - max self.from_csaf 0) = max self.from_csaf 0
    linarith
  · intro h0
    show st.prepaid - (st.prepaid - max self.from_prepaid 0) = self.from_prepaid
    rw [max_eq_left h0]
    linarith
  · intro h0
    show st.csaf - (st.csaf - max self.from_csaf 0) = self.from_csaf
    rw [max_eq_left h0]
    linarith
  · intro h0
    show 0 ≤ st.prepaid - max self.from_prepaid 0
    rcases le_total self.from_prepaid 0 with q | q
    · rw [max_eq_right q]
      linarith
    · rw [max_eq_left q]
      by_cases q1 : self.from_prepaid > 0
      · have := not_not.mp (fun hn => c1 ⟨q1, hn⟩)
        linarith
      · linarith
  · intro h0
    show 0 ≤ st.csaf - max self.from_csaf 0
    rcases le_total self.from_csaf 0 with q | q
    · rw [max_eq_right q]
      linarith
    · rw [max_eq_left q]
      by_cases q1 : self.from_csaf > 0
      · have := not_not.mp (fun hn => c2 ⟨q1, hn⟩)
        linarith
      · linarith

/-- The claim C5 as stated fails for a negative portion: `prepare_fee` accepts a fee
whose prepaid portion is -5, `process_fee_options` then succeeds for payer 7 and
leaves the prepaid balance at 50, so the balance has gone down by 0 and not by
`from_prepaid`. -/
theorem process_fee_options_debits_counterexample :
    (generic_evaluator.prepare_fee_uid 0 sample_evaluator sample_ledger 7
      sample_fee_negative_prepaid).2 = .ok () ∧
    (sample_prepared sample_ledger sample_fee_negative_prepaid).trx_state.skip_fee = false ∧
    (sample_prepared sample_ledger sample_fee_negative_prepaid).fee_paying_account_statistics
      = some 7 ∧
    (sample_prepared sample_ledger sample_fee_negative_prepaid).from_prepaid = -5 ∧
    ((sample_prepared sample_ledger sample_fee_negative_prepaid).process_fee_options 0
      sample_ledger).2 = .ok () ∧
    (sample_ledger.account_statistics 7).map (fun s => s.prepaid) = some 50 ∧
    ((((sample_prepared sample_ledger sample_fee_negative_prepaid).process_fee_options 0
      sample_ledger).1.account_statistics 7).map (fun s => s.prepaid)) = some 50 ∧
    ((((sample_prepared sample_ledger sample_fee_negative_prepaid).process_fee_options 0
      sample_ledger).1.account_statistics 7).map (fun s => decide ((50 : Int) - s.prepaid =
        (sample_prepared sample_ledger sample_fee_negative_prepaid).from_prepaid)))
      = some false := by
  refine ⟨rfl, rfl, rfl, rfl, rfl, rfl, rfl, rfl⟩

/-- The fee-split scenario: prepaid 50, csaf 30, a fee of 40 all from prepaid; the
settlement succeeds and leaves prepaid 10 and csaf 30. -/
theorem process_fee_options_debits_witness :
    ((sample_prepared sample_ledger (sample_fee_from_prepaid 40)).process_fee_options 0
      sample_ledger).2 = .ok () ∧
    (∃ st', ((sample_prepared sample_ledger (sample_fee_from_prepaid 40)).process_fee_options 0
        sample_ledger).1.account_statistics 7 = some st' ∧
      (50 : Int) - st'.prepaid = max 40 0 ∧ (30 : Int) - st'.csaf = max 0 0 ∧
      ((0 : Int) ≤ 40 → (50 : Int) - st'.prepaid = 40) ∧
      ((0 : Int) ≤ 0 → (30 : Int) - st'.csaf = 0) ∧
      ((0 : Int) ≤ 50 → 0 ≤ st'.prepaid) ∧ ((0 : Int) ≤ 30 → 0 ≤ st'.csaf)) ∧
    ((((sample_prepared sample_ledger (sample_fee_from_prepaid 40)).process_fee_options 0
      sample_ledger).1.account_statistics 7).map (fun s => (s.prepaid, s.csaf)))
      = some (10, 30) :=
  ⟨rfl,
   process_fee_options_debits 0 (sample_prepared sample_ledger (sample_fee_from_prepaid 40))
     sample_ledger
     ((sample_prepared sample_ledger (sample_fee_from_prepaid 40)).process_fee_options 0
        sample_ledger).1
     7 { last_custom_vote_sequence := 0, prepaid := 50, csaf := 30, core_balance_votes := 150 }
     rfl rfl rfl rfl,
   rfl⟩

/-- A fee portion that is positive and exceeds the balance it is claimed from makes
`process_fee_options` throw the matching insufficient-funds failure, with the ledger
exactly as it was. -/
theorem process_fee_options_positive_excess (CORE : asset_aid_type)
    (self : generic_evaluator) (d : database) (uid : account_uid_type)
    (st : _account_statistics_object)
    (hskip : self.trx_state.skip_fee = false)
    (hp : self.fee_paying_account_statistics = some uid)
    (hs : d.account_statistics uid = some st)
    (hex : (0 < self.from_prepaid ∧ st.prepaid < self.from_prepaid) ∨
           (0 < self.from_csaf ∧ st.csaf < self.from_csaf)) :
    self.process_fee_options CORE d = (d, .error .insufficient_prepaid) ∨
    self.process_fee_options CORE d = (d, .error .insufficient_csaf) := by
  unfold generic_evaluator.process_fee_options
  simp only [hskip, Bool.false_eq_true, not_false_eq_true, if_true, hp, hs]
  by_cases c1 : self.from_prepaid > 0 ∧ ¬ (st.prepaid ≥ self.from_prepaid)
  · left
    rw [if_pos c1]
  · right
    have c2 : self.from_csaf > 0 ∧ ¬ (st.csaf ≥ self.from_csaf) := by
      rcases hex with ⟨h1, h2⟩ | ⟨h1, h2⟩
      · exact absurd ⟨h1, not_le.mpr h2⟩ c1
      · exact ⟨h1, not_le.mpr h2⟩
    rw [if_neg c1, if_pos c2]

/-- C6: in a transaction that is not fee-exempt, for a payer whose prepaid and csaf
balances are not negative (the settlement never takes them below zero),
`process_fee_options` fails if `from_prepaid` exceeds the payer's prepaid balance or
`from_csaf` exceeds the payer's csaf balance: it throws an insufficient-funds failure
and the ledger at the throw is the ledger it was given, so neither the statistics
record nor the supply of the core asset has been changed.  The failure is the prepaid
one when the prepaid portion exceeds its balance, the csaf one otherwise. -/
theorem process_fee_options_insufficient (CORE : asset_aid_type) (self : generic_evaluator)
    (d : database) (uid : account_uid_type) (st : _account_statistics_object)
    (hskip : self.trx_state.skip_fee = false)
    (hp : self.fee_paying_account_statistics = some uid)
    (hs : d.account_statistics uid = some st)
    (hprepaid : 0 ≤ st.prepaid) (hcsaf : 0 ≤ st.csaf)
    (hex : st.prepaid < self.from_prepaid ∨ st.csaf < self.from_csaf) :
    (self.process_fee_options CORE d = (d, .error .insufficient_prepaid) ∨
      self.process_fee_options CORE d = (d, .error .insufficient_csaf)) ∧
    (st.prepaid < self.from_prepaid →
      self.process_fee_options CORE d = (d, .error .insufficient_prepaid)) ∧
    (¬ st.prepaid < self.from_prepaid →
      self.process_fee_options CORE d = (d, .error .insufficient_csaf)) := by
  have hfirst : st.prepaid < self.from_prepaid →
      self.process_fee_options CORE d = (d, .error .insufficient_prepaid) := by
    intro h
    have c1 : self.from_prepaid > 0 ∧ ¬ (st.prepaid ≥ self.from_prepaid) :=
      ⟨lt_of_le_of_lt hprepaid h, not_le.mpr h⟩
    unfold generic_evaluator.process_fee_options
    simp only [hskip, Bool.false_eq_true, not_false_eq_true, if_true, hp, hs]
    rw [if_pos c1]
  have hsecond : ¬ st.prepaid < self.from_prepaid →
      self.process_fee_options CORE d = (d, .error .insufficient_csaf) := by
    intro h
    have hc : st.csaf < self.from_csaf := by
      rcases hex with h1 | h1
      · exact absurd h1 h
      · exact h1
    have c1 : ¬ (self.from_prepaid > 0 ∧ ¬ (st.prepaid ≥ self.from_prepaid)) :=
      fun c => h (not_le.mp c.2)
    have c2 : self.from_csaf > 0 ∧ ¬ (st.csaf ≥ self.from_csaf) :=
      ⟨lt_of_le_of_lt hcsaf hc, not_le.mpr hc⟩
    unfold generic_evaluator.process_fee_options
    simp only [hskip, Bool.false_eq_true, not_false_eq_true, if_true, hp, hs]
    rw [if_neg c1, if_pos c2]
  refine ⟨?_, hfirst, hsecond⟩
  by_cases h : st.prepaid < self.from_prepaid
  · exact Or.inl (hfirst h)
  · exact Or.inr (hsecond h)

/-- The fee-split scenario: prepaid 50 and a prepaid portion of 60 fail with
insufficient prepaid, the ledger untouched; prepaid 50, csaf 30 and a csaf portion of
40 fail with insufficient csaf, the ledger untouched. -/
theorem process_fee_options_insufficient_witness :
    (sample_prepared sample_ledger (sample_fee_from_prepaid 60)).from_prepaid = 60 ∧
    (sample_ledger.account_statistics 7).map (fun s => (s.prepaid, s.csaf)) = some (50, 30) ∧
    (sample_prepared sample_ledger (sample_fee_from_prepaid 60)).process_fee_options 0
      sample_ledger = (sample_ledger, .error .insufficient_prepaid) ∧
    (sample_prepared sample_ledger sample_fee_from_csaf_40).from_csaf = 40 ∧
    (sample_prepared sample_ledger sample_fee_from_csaf_40).process_fee_options 0
      sample_ledger = (sample_ledger, .error .insufficient_csaf) :=
  ⟨rfl, rfl,
   (process_fee_options_insufficient 0
     (sample_prepared sample_ledger (sample_fee_from_prepaid 60)) sample_ledger 7
     { last_custom_vote_sequence := 0, prepaid := 50, csaf := 30, core_balance_votes := 150 }
     rfl rfl rfl (by decide) (by decide) (Or.inl (by decide))).2.1 (by decide),
   rfl,
   (process_fee_options_insufficient 0
     (sample_prepared sample_ledger sample_fee_from_csaf_40) sample_ledger 7
     { last_custom_vote_sequence := 0, prepaid := 50, csaf := 30, core_balance_votes := 150 }
     rfl rfl rfl (by decide) (by decide) (Or.inr (by decide))).2.2 (by decide)⟩

/-- C7: whenever `process_fee_options` succeeds in a transaction that is not
fee-exempt, the dynamic data of the core asset has its `current_supply` lowered by
`from_prepaid + from_balance` (the csaf portion does not enter) and its other fields
kept, every other dynamic data record is unchanged, and so are the asset records. -/
theorem process_fee_options_supply (CORE : asset_aid_type) (self : generic_evaluator)
    (d d' : database) (hskip : self.trx_state.skip_fee = false)
    (h : self.process_fee_options CORE d = (d', .ok ())) :
    ∃ core o,
      d.assets CORE = some core ∧
      d.asset_dynamic_data core.dynamic_asset_data_id = some o ∧
      d'.asset_dynamic_data core.dynamic_asset_data_id =
        some { asset_id := o.asset_id
               current_supply := o.current_supply - (self.from_prepaid + self.from_balance)
               accumulated_fees := o.accumulated_fees } ∧
      (∀ i, i ≠ core.dynamic_asset_data_id →
        d'.asset_dynamic_data i = d.asset_dynamic_data i) ∧
      d'.assets = d.assets := by
  obtain ⟨uid, st, core, o, _, _, _, _, ha, ho, hd⟩ :=
    process_fee_options_ok CORE self d d' hskip h
  refine ⟨core, o, ha, ho, ?_, ?_, ?_⟩
  · rw [hd]
    simp [database.modify_asset_dynamic_data, database.modify_account_statistics, ho]
  · intro i hi
    rw [hd]
    simp [database.modify_asset_dynamic_data, database.modify_account_statistics, hi]
  · rw [hd]
    rfl

/-- A flat fee of 20 on the sample ledger: the supply goes from 1000 to 980 and the
accumulated fees stay 0. -/
theorem process_fee_options_supply_witness :
    (sample_prepared sample_ledger sample_fee_flat).from_prepaid
      + (sample_prepared sample_ledger sample_fee_flat).from_balance = 20 ∧
    ((sample_prepared sample_ledger sample_fee_flat).process_fee_options 0
      sample_ledger).1.asset_dynamic_data 0 =
      some { asset_id := 0, current_supply := 980, accumulated_fees := 0 } ∧
    (∃ core o,
      sample_ledger.assets 0 = some core ∧
      sample_ledger.asset_dynamic_data core.dynamic_asset_data_id = some o ∧
      ((sample_prepared sample_ledger sample_fee_flat).process_fee_options 0
        sample_ledger).1.asset_dynamic_data core.dynamic_asset_data_id =
        some { asset_id := o.asset_id
               current_supply := o.current_supply -
                 ((sample_prepared sample_ledger sample_fee_flat).from_prepaid
                   + (sample_prepared sample_ledger sample_fee_flat).from_balance)
               accumulated_fees := o.accumulated_fees } ∧
      (∀ i, i ≠ core.dynamic_asset_data_id →
        ((sample_prepared sample_ledger sample_fee_flat).process_fee_options 0
          sample_ledger).1.asset_dynamic_data i = sample_ledger.asset_dynamic_data i) ∧
      ((sample_prepared sample_ledger sample_fee_flat).process_fee_options 0
        sample_ledger).1.assets = sample_ledger.assets) :=
  ⟨rfl, rfl,
   process_fee_options_supply 0 (sample_prepared sample_ledger sample_fee_flat) sample_ledger
     ((sample_prepared sample_ledger sample_fee_flat).process_fee_options 0 sample_ledger).1
     rfl rfl⟩

/-- `prepare_fee(const fee_type&)` stops on the asset check when the portion drawn
from the ordinary balance is in another asset than the core asset. -/
theorem prepare_fee_balance_portion (CORE : asset_aid_type) (self : generic_evaluator)
    (d : database) (fee : fee_type) (b : asset) (hb : fee.balance_portion = some b)
    (hne : b.asset_id ≠ CORE) :
    (self.prepare_fee CORE d fee).2 = .error .must_use_core_asset := by
  unfold generic_evaluator.prepare_fee
  unfold fee_type.balance_portion at hb
  cases ho : fee.options with
  | none =>
    simp only [ho, Option.some.injEq] at hb
    simp [hb, hne]
  | some fov =>
    simp only [ho] at hb
    simp [hb, hne]

/-- The asset overload stops before capturing the statistics record when its fee is in
another asset than the core asset. -/
theorem prepare_fee_asset_other (CORE : asset_aid_type) (self : generic_evaluator)
    (d : database) (fee : asset) (hne : fee.asset_id ≠ CORE) :
    (self.prepare_fee_asset CORE d fee).2.isOk = false := by
  unfold generic_evaluator.prepare_fee_asset
  by_cases h0 : fee.amount ≥ 0
  · simp [h0, hne, Except.isOk, Except.toBool]
  · simp [h0, Except.isOk, Except.toBool]

/-- C4, as amended: every overload of `prepare_fee` fails when the asset of the
portion drawn from the ordinary balance is not the core asset, whatever the amounts
and the other portions: that portion is the whole fee for the `asset` overloads, the
total of a flat fee, and `from_balance` of a fee with options.  When options are
present, the asset identifiers of the total, of `from_prepaid` and of `from_csaf` are
not inspected: two fees with options that agree on `from_balance` and on the amounts
of the total and of the other two portions have the same outcome, the evaluator
included. -/
theorem prepare_fee_rejects_other_asset (CORE : asset_aid_type) (self : generic_evaluator)
    (d : database) (account_uid : account_uid_type) (account_id : object_id_type) :
    (∀ (fee : fee_type) (b : asset), fee.balance_portion = some b → b.asset_id ≠ CORE →
      (self.prepare_fee CORE d fee).2 = .error .must_use_core_asset ∧
      (self.prepare_fee_uid CORE d account_uid fee).2.isOk = false) ∧
    (∀ fee : asset, fee.asset_id ≠ CORE →
      (self.prepare_fee_asset CORE d fee).2.isOk = false ∧
      (self.prepare_fee_uid_asset CORE d account_uid fee).2.isOk = false ∧
      (self.prepare_fee_id_asset CORE d account_id fee).2.isOk = false) ∧
    (∀ (fee fee' : fee_type) (fov fov' : fee_option_type),
      fee.options = some fov → fee'.options = some fov' →
      fee'.total.amount = fee.total.amount →
      fov'.from_balance = fov.from_balance →
      fov'.from_prepaid.map (fun a => a.amount) = fov.from_prepaid.map (fun a => a.amount) →
      fov'.from_csaf.map (fun a => a.amount) = fov.from_csaf.map (fun a => a.amount) →
      self.prepare_fee CORE d fee' = self.prepare_fee CORE d fee) := by
  refine ⟨?_, ?_, ?_⟩
  · intro fee b hb hne
    refine ⟨prepare_fee_balance_portion CORE self d fee b hb hne, ?_⟩
    unfold generic_evaluator.prepare_fee_uid
    cases d.get_account_by_uid account_uid with
    | error e => rfl
    | ok a =>
      show (generic_evaluator.prepare_fee CORE _ d fee).2.isOk = false
      rw [prepare_fee_balance_portion CORE _ d fee b hb hne]
      rfl
  · intro fee hne
    refine ⟨prepare_fee_asset_other CORE self d fee hne, ?_, ?_⟩
    · unfold generic_evaluator.prepare_fee_uid_asset
      cases d.get_account_by_uid account_uid with
      | error e => rfl
      | ok a => exact prepare_fee_asset_other CORE _ d fee hne
    · unfold generic_evaluator.prepare_fee_id_asset
      cases d.accounts_by_id account_id with
      | none => rfl
      | some a => exact prepare_fee_asset_other CORE _ d fee hne
  · intro fee fee' fov fov' ho ho' ht hb hp hc
    rcases fee with ⟨⟨ta, ti⟩, o⟩
    rcases fee' with ⟨⟨ta', ti'⟩, o'⟩
    rcases fov with ⟨fb, fp, fc⟩
    rcases fov' with ⟨fb', fp', fc'⟩
    simp only at ho ho' ht hb
    subst ho ho' ht hb
    rcases fp with _ | ⟨pa, pi⟩ <;> rcases fp' with _ | ⟨pa', pi'⟩ <;>
      simp only [Option.map_none', Option.map_some', Option.some.injEq, reduceCtorEq] at hp <;>
      rcases fc with _ | ⟨ca, ci⟩ <;> rcases fc' with _ | ⟨ca', ci'⟩ <;>
      simp only [Option.map_none', Option.map_some', Option.some.injEq, reduceCtorEq] at hc <;>
      (try subst hp) <;> (try subst hc) <;> rfl

/-- The claim C4 as stated fails when no balance portion carries the other asset:
a fee denominated throughout in asset 1 and paid from prepaid, and a fee whose total
is in asset 1 while its `from_balance` is in the core asset 0, both pass
`prepare_fee`. -/
theorem prepare_fee_rejects_other_asset_counterexample :
    sample_fee_other_asset.total.asset_id ≠ 0 ∧
    sample_fee_other_asset.options.bind (fun o => o.from_prepaid.map (fun a => a.asset_id))
      = some 1 ∧
    (generic_evaluator.prepare_fee_uid 0 sample_evaluator sample_ledger 7
      sample_fee_other_asset).2 = .ok () ∧
    sample_fee_other_total.total.asset_id ≠ 0 ∧
    (generic_evaluator.prepare_fee_uid 0 sample_evaluator sample_ledger 7
      sample_fee_other_total).2 = .ok () := by
  refine ⟨by decide, rfl, rfl, by decide, rfl⟩

/-- A flat fee in asset 1, and a fee whose `from_balance` is in asset 1, are rejected
on the sample ledger, where the core asset is 0; a fee of 40 paid from prepaid has the
same outcome with its total and its prepaid portion in asset 1 as with both in the
core asset. -/
theorem prepare_fee_rejects_other_asset_witness :
    (generic_evaluator.prepare_fee 0 sample_evaluator sample_ledger
      { total := { amount := 40, asset_id := 1 }, options := none }).2
      = .error .must_use_core_asset ∧
    (generic_evaluator.prepare_fee 0 sample_evaluator sample_ledger
      { total := { amount := 40, asset_id := 0 }
        options := some { from_balance := some { amount := 40, asset_id := 1 }
                          from_prepaid := none, from_csaf := none } }).2
      = .error .must_use_core_asset ∧
    (generic_evaluator.prepare_fee_asset 0 sample_evaluator sample_ledger
      { amount := 40, asset_id := 1 }).2.isOk = false ∧
    generic_evaluator.prepare_fee 0 sample_evaluator sample_ledger sample_fee_other_asset
      = generic_evaluator.prepare_fee 0 sample_evaluator sample_ledger
          { total := { amount := 40, asset_id := 0 }
            options := some { from_balance := none
                              from_prepaid := some { amount := 40, asset_id := 0 }
                              from_csaf := none } } :=
  ⟨((prepare_fee_rejects_other_asset 0 sample_evaluator sample_ledger 7 0).1
      { total := { amount := 40, asset_id := 1 }, options := none }
      { amount := 40, asset_id := 1 } rfl (by decide)).1,
   ((prepare_fee_rejects_other_asset 0 sample_evaluator sample_ledger 7 0).1
      { total := { amount := 40, asset_id := 0 }
        options := some { from_balance := some { amount := 40, asset_id := 1 }
                          from_prepaid := none, from_csaf := none } }
      { amount := 40, asset_id := 1 } rfl (by decide)).1,
   ((prepare_fee_rejects_other_asset 0 sample_evaluator sample_ledger 7 0).2.1
      { amount := 40, asset_id := 1 } (by decide)).1,
   (prepare_fee_rejects_other_asset 0 sample_evaluator sample_ledger 7 0).2.2
      { total := { amount := 40, asset_id := 0 }
        options := some { from_balance := none
                          from_prepaid := some { amount := 40, asset_id := 0 }
                          from_csaf := none } }
      sample_fee_other_asset _ _ rfl rfl rfl rfl rfl rfl⟩

/-! ## Casting of custom votes -/

/-- With the hardfork reached, the voter and the poll present, the poll not overdue,
the stake sufficient and the largest selected index valid, `do_evaluate` of a cast
turns on the selection count alone. -/
theorem cast_do_evaluate_count (H : time_point_sec) (d : database)
    (op : custom_vote_cast_operation) (poll : custom_vote_object)
    (stats : _account_statistics_object) (m : Nat)
    (hH : H ≤ d.head_block_time)
    (ha : (d.accounts op.voter).isSome = true)
    (hpoll : d.find_custom_vote_by_vid op.custom_vote_creator op.custom_vote_vid = some poll)
    (htime : d.head_block_time ≤ poll.vote_expired_time)
    (hs : d.account_statistics op.voter = some stats)
    (hstake : poll.required_asset_amount ≤ stats.get_votes_from_core_balance)
    (hmax : op.vote_result.max = some m)
    (hm : m < poll.options.length) :
    custom_vote_cast_evaluator.do_evaluate H d op =
      if poll.minimum_selected_items ≤ op.vote_result.card ∧
          op.vote_result.card ≤ poll.maximum_selected_items
      then .ok {} else .error .vote_options_num_out_of_range := by
  obtain ⟨a, ha⟩ := Option.isSome_iff_exists.mp ha
  unfold custom_vote_cast_evaluator.do_evaluate database.get_account_by_uid
    database.get_account_statistics_by_uid
  simp only [ge_iff_le, hH, not_true_eq_false, if_false, ha, hpoll, htime, hs, hstake, hmax, hm]
  by_cases hc : poll.minimum_selected_items ≤ op.vote_result.card ∧
      op.vote_result.card ≤ poll.maximum_selected_items
  · simp [hc]
  · simp [hc]

/-- C10, as amended: for a cast whose other preconditions hold (hardfork reached,
voter and poll present, poll not overdue, stake sufficient, largest selected index
valid), `do_evaluate` succeeds exactly when the selection count lies between the
poll's `minimum_selected_items` and `maximum_selected_items`, both included; so, for a
poll whose minimum does not exceed its maximum, a ballot with exactly the minimum and
one with exactly the maximum number of selections are accepted, and for every poll a
ballot with one selection less than the minimum or one more than the maximum is
rejected. -/
theorem custom_vote_cast_count_bounds (H : time_point_sec) (d : database)
    (op : custom_vote_cast_operation) (poll : custom_vote_object)
    (stats : _account_statistics_object) (m : Nat)
    (hH : H ≤ d.head_block_time)
    (ha : (d.accounts op.voter).isSome = true)
    (hpoll : d.find_custom_vote_by_vid op.custom_vote_creator op.custom_vote_vid = some poll)
    (htime : d.head_block_time ≤ poll.vote_expired_time)
    (hs : d.account_statistics op.voter = some stats)
    (hstake : poll.required_asset_amount ≤ stats.get_votes_from_core_balance)
    (hmax : op.vote_result.max = some m)
    (hm : m < poll.options.length) :
    (custom_vote_cast_evaluator.do_evaluate H d op = .ok {} ↔
      (poll.minimum_selected_items ≤ op.vote_result.card ∧
        op.vote_result.card ≤ poll.maximum_selected_items)) ∧
    (poll.minimum_selected_items ≤ poll.maximum_selected_items →
      op.vote_result.card = poll.minimum_selected_items →
      custom_vote_cast_evaluator.do_evaluate H d op = .ok {}) ∧
    (poll.minimum_selected_items ≤ poll.maximum_selected_items →
      op.vote_result.card = poll.maximum_selected_items →
      custom_vote_cast_evaluator.do_evaluate H d op = .ok {}) ∧
    (op.vote_result.card + 1 = poll.minimum_selected_items →
      custom_vote_cast_evaluator.do_evaluate H d op = .error .vote_options_num_out_of_range) ∧
    (op.vote_result.card = poll.maximum_selected_items + 1 →
      custom_vote_cast_evaluator.do_evaluate H d op
        = .error .vote_options_num_out_of_range) := by
  rw [cast_do_evaluate_count H d op poll stats m hH ha hpoll htime hs hstake hmax hm]
  refine ⟨?_, ?_, ?_, ?_, ?_⟩
  · by_cases hc : poll.minimum_selected_items ≤ op.vote_result.card ∧
        op.vote_result.card ≤ poll.maximum_selected_items
    · simp [hc]
    · simp only [hc, if_false, iff_false]
      intro h
      cases h
  · intro hle hc
    rw [if_pos ⟨le_of_eq hc.symm, hc ▸ hle⟩]
  · intro hle hc
    rw [if_pos ⟨hc ▸ hle, le_of_eq hc⟩]
  · intro hc
    rw [if_neg]
    intro h
    have := h.1
    rw [← hc] at this
    exact Nat.not_succ_le_self _ this
  · intro hc
    rw [if_neg]
    intro h
    have := h.2
    rw [hc] at this
    exact Nat.not_succ_le_self _ this

/-- The claim C10 as stated fails for a poll whose minimum exceeds its maximum: the
create evaluator stores a poll with bounds 3 and 2, and a ballot of account 7 (stake
150, required 100) selecting exactly 3 valid options before the expiry is rejected on
its count. -/
theorem custom_vote_cast_count_bounds_counterexample :
    (sample_ledger_with_crossed_poll.find_custom_vote_by_vid 7 1).map
      (fun o => (o.minimum_selected_items, o.maximum_selected_items, o.options.length,
        o.vote_expired_time, o.required_asset_amount)) = some (3, 2, 3, 4600, 100) ∧
    sample_ledger_with_crossed_poll.head_block_time = 1000 ∧
    (sample_ledger_with_crossed_poll.account_statistics 7).map
      (fun s => s.get_votes_from_core_balance) = some 150 ∧
    (sample_cast {0, 1, 2}).vote_result.card = 3 ∧
    (sample_cast {0, 1, 2}).vote_result.max = some 2 ∧
    custom_vote_cast_evaluator.do_evaluate 500 sample_ledger_with_crossed_poll
      (sample_cast {0, 1, 2}) = .error .vote_options_num_out_of_range := by
  refine ⟨rfl, rfl, rfl, rfl, rfl, rfl⟩

/-- The lifecycle scenario: on the poll with bounds 1 and 2 and three options, the
ballot `{0, 2}` of a voter with stake 150 is accepted and the ballot `{0, 1, 2}` is
rejected. -/
theorem custom_vote_cast_count_bounds_witness :
    custom_vote_cast_evaluator.do_evaluate 500 sample_ledger_with_poll (sample_cast {0, 2})
      = .ok {} ∧
    custom_vote_cast_evaluator.do_evaluate 500 sample_ledger_with_poll (sample_cast {0, 1, 2})
      = .error .vote_options_num_out_of_range :=
  ⟨(custom_vote_cast_count_bounds 500 sample_ledger_with_poll (sample_cast {0, 2}) sample_poll
      sample_voter_statistics 2 (by decide) (by decide) rfl (by decide) rfl (by decide) rfl
      (by decide)).2.2.1 (by decide) rfl,
   (custom_vote_cast_count_bounds 500 sample_ledger_with_poll (sample_cast {0, 1, 2})
      sample_poll sample_voter_statistics 2 (by decide) (by decide) rfl (by decide) rfl
      (by decide) rfl (by decide)).2.2.2.2 rfl⟩

/-! ## The account-to-proposal index -/

theorem bucket_insert_at (s : required_approval_index) (a u : account_uid_type)
    (p : proposal_id_type) :
    (s.insert_at a p).bucket u = if u = a then insert p (s.bucket a) else s.bucket u := by
  unfold required_approval_index.insert_at required_approval_index.bucket
  by_cases h : u = a <;> simp [h]

theorem no_empty_bucket_insert_at (s : required_approval_index) (a : account_uid_type)
    (p : proposal_id_type) (h : s.no_empty_bucket) : (s.insert_at a p).no_empty_bucket := by
  intro u b hb
  unfold required_approval_index.insert_at at hb
  by_cases hu : u = a
  · simp only [hu, if_true, Option.some.injEq] at hb
    rw [← hb]
    exact Finset.insert_nonempty _ _
  · simp only [hu, if_false] at hb
    exact h u b hb

theorem mem_bucket_foldl_insert (L : List account_uid_type) (s : required_approval_index)
    (p q : proposal_id_type) (u : account_uid_type) :
    q ∈ (L.foldl (fun s a => s.insert_at a p) s).bucket u ↔
      q ∈ s.bucket u ∨ (u ∈ L ∧ q = p) := by
  induction L generalizing s with
  | nil => simp
  | cons a L ih =>
    rw [List.foldl_cons, ih, bucket_insert_at]
    by_cases h : u = a
    · subst h
      simp only [if_true, Finset.mem_insert, List.mem_cons, true_or, true_and]
      tauto
    · simp only [h, if_false, List.mem_cons, false_or]

theorem no_empty_bucket_foldl_insert (L : List account_uid_type) (s : required_approval_index)
    (p : proposal_id_type) (h : s.no_empty_bucket) :
    (L.foldl (fun s a => s.insert_at a p) s).no_empty_bucket := by
  induction L generalizing s with
  | nil => exact h
  | cons a L ih => exact ih _ (no_empty_bucket_insert_at s a p h)

theorem mem_bucket_object_inserted (s : required_approval_index) (p : proposal_object)
    (q : proposal_id_type) (u : account_uid_type) :
    q ∈ (s.object_inserted p).bucket u ↔ q ∈ s.bucket u ∨ (p.references u ∧ q = p.id) := by
  unfold required_approval_index.object_inserted proposal_object.references
  simp only [mem_bucket_foldl_insert]
  tauto

theorem no_empty_bucket_object_inserted (s : required_approval_index) (p : proposal_object)
    (h : s.no_empty_bucket) : (s.object_inserted p).no_empty_bucket := by
  unfold required_approval_index.object_inserted
  repeat apply no_empty_bucket_foldl_insert
  exact h

theorem bucket_remove (s : required_approval_index) (a u : account_uid_type)
    (p : proposal_id_type) :
    (s.remove a p).bucket u = if u = a then (s.bucket a).erase p else s.bucket u := by
  unfold required_approval_index.remove required_approval_index.bucket
  cases hm : s._account_to_proposals a with
  | none =>
    by_cases h : u = a
    · subst h
      simp [hm]
    · simp [h]
  | some b =>
    by_cases he : b.erase p = ∅
    · by_cases h : u = a
      · subst h
        simp [he]
      · simp [he, h]
    · by_cases h : u = a
      · subst h
        simp [he]
      · simp [he, h]

theorem no_empty_bucket_remove (s : required_approval_index) (a : account_uid_type)
    (p : proposal_id_type) (h : s.no_empty_bucket) : (s.remove a p).no_empty_bucket := by
  intro u b hb
  unfold required_approval_index.remove at hb
  cases hm : s._account_to_proposals a with
  | none =>
    rw [hm] at hb
    exact h u b hb
  | some c =>
    rw [hm] at hb
    by_cases he : c.erase p = ∅
    · simp only [he, if_true] at hb
      by_cases hu : u = a
      · simp [hu] at hb
      · simp only [hu, if_false] at hb
        exact h u b hb
    · simp only [he, if_false] at hb
      by_cases hu : u = a
      · simp only [hu, if_true, Option.some.injEq] at hb
        rw [← hb]
        exact Finset.nonempty_iff_ne_empty.mpr he
      · simp only [hu, if_false] at hb
        exact h u b hb

theorem mem_bucket_foldl_remove (L : List account_uid_type) (s : required_approval_index)
    (p q : proposal_id_type) (u : account_uid_type) :
    q ∈ (L.foldl (fun s a => s.remove a p) s).bucket u ↔
      q ∈ s.bucket u ∧ ¬ (u ∈ L ∧ q = p) := by
  induction L generalizing s with
  | nil => simp
  | cons a L ih =>
    rw [List.foldl_cons, ih, bucket_remove]
    by_cases h : u = a
    · subst h
      simp only [if_true, Finset.mem_erase, List.mem_cons, true_or, true_and]
      tauto
    · simp only [h, if_false, List.mem_cons, false_or]

theorem no_empty_bucket_foldl_remove (L : List account_uid_type) (s : required_approval_index)
    (p : proposal_id_type) (h : s.no_empty_bucket) :
    (L.foldl (fun s a => s.remove a p) s).no_empty_bucket := by
  induction L generalizing s with
  | nil => exact h
  | cons a L ih => exact ih _ (no_empty_bucket_remove s a p h)

theorem mem_bucket_object_removed (s : required_approval_index) (p : proposal_object)
    (q : proposal_id_type) (u : account_uid_type) :
    q ∈ (s.object_removed p).bucket u ↔ q ∈ s.bucket u ∧ ¬ (p.references u ∧ q = p.id) := by
  unfold required_approval_index.object_removed proposal_object.references
  simp only [mem_bucket_foldl_remove]
  tauto

theorem no_empty_bucket_object_removed (s : required_approval_index) (p : proposal_object)
    (h : s.no_empty_bucket) : (s.object_removed p).no_empty_bucket := by
  unfold required_approval_index.object_removed
  repeat apply no_empty_bucket_foldl_remove
  exact h

/-- Proposals with the same six approval sets reference the same accounts. -/
theorem references_of_same_approval_sets (p q : proposal_object)
    (h : p.same_approval_sets q) (u : account_uid_type) :
    p.references u ↔ q.references u := by
  obtain ⟨h1, h2, h3, h4, h5, h6⟩ := h
  unfold proposal_object.references
  rw [h1, h2, h3, h4, h5, h6]

/-- Two indexes without empty buckets that agree on every bucket are the same map. -/
theorem required_approval_index_ext (s t : required_approval_index)
    (hs : s.no_empty_bucket) (ht : t.no_empty_bucket)
    (h : ∀ u, s.bucket u = t.bucket u) : s = t := by
  cases s with
  | mk f =>
    cases t with
    | mk g =>
      congr
      funext u
      have hu := h u
      unfold required_approval_index.bucket at hu
      simp only at hu
      cases hf : f u with
      | none =>
        cases hg : g u with
        | none => rfl
        | some b =>
          rw [hf, hg] at hu
          simp only [Option.getD_none, Option.getD_some] at hu
          exact absurd hu.symm (Finset.nonempty_iff_ne_empty.mp (ht u b hg))
      | some a =>
        cases hg : g u with
        | none =>
          rw [hf, hg] at hu
          simp only [Option.getD_none, Option.getD_some] at hu
          exact absurd hu (Finset.nonempty_iff_ne_empty.mp (hs u a hf))
        | some b =>
          rw [hf, hg] at hu
          simp only [Option.getD_some] at hu
          rw [hu]

/-- The buckets of an index into which a list of proposals has been inserted. -/
theorem mem_bucket_foldl_object_inserted (live : List proposal_object)
    (s : required_approval_index) (q : proposal_id_type) (u : account_uid_type) :
    q ∈ (live.foldl (fun s p => s.object_inserted p) s).bucket u ↔
      q ∈ s.bucket u ∨ ∃ p ∈ live, p.id = q ∧ p.references u := by
  induction live generalizing s with
  | nil => simp
  | cons p live ih =>
    rw [List.foldl_cons, ih, mem_bucket_object_inserted]
    constructor
    · rintro ((h | ⟨h1, h2⟩) | ⟨p', hp', h1, h2⟩)
      · exact Or.inl h
      · exact Or.inr ⟨p, List.mem_cons_self _ _, h2.symm, h1⟩
      · exact Or.inr ⟨p', List.mem_cons_of_mem _ hp', h1, h2⟩
    · rintro (h | ⟨p', hp', h1, h2⟩)
      · exact Or.inl (Or.inl h)
      · rcases List.mem_cons.mp hp' with rfl | hp'
        · exact Or.inl (Or.inr ⟨h2, h1.symm⟩)
        · exact Or.inr ⟨p', hp', h1, h2⟩

theorem no_empty_bucket_foldl_object_inserted (live : List proposal_object)
    (s : required_approval_index) (h : s.no_empty_bucket) :
    (live.foldl (fun s p => s.object_inserted p) s).no_empty_bucket := by
  induction live generalizing s with
  | nil => exact h
  | cons p live ih => exact ih _ (no_empty_bucket_object_inserted s p h)

theorem no_empty_bucket_empty : required_approval_index.empty.no_empty_bucket := by
  intro a b hb
  simp [required_approval_index.empty] at hb

/-- The index maintained by notifications stays consistent with the live proposals:
it has no empty bucket, its buckets hold exactly the live proposals that reference the
account, and the live proposals keep distinct identifiers. -/
theorem index_invariant_foldl (calls : List index_call) (idx : required_approval_index)
    (live : List proposal_object)
    (hne : idx.no_empty_bucket)
    (hmem : ∀ u q, q ∈ idx.bucket u ↔ ∃ p ∈ live, p.id = q ∧ p.references u)
    (hnd : (live.map (fun p => p.id)).Nodup)
    (hwf : well_formed_calls live calls = true) :
    (calls.foldl required_approval_index.notify idx).no_empty_bucket ∧
    (∀ u q, q ∈ (calls.foldl required_approval_index.notify idx).bucket u ↔
      ∃ p ∈ calls.foldl live_after live, p.id = q ∧ p.references u) := by
  induction calls generalizing idx live with
  | nil => exact ⟨hne, hmem⟩
  | cons c calls ih =>
    cases c with
    | object_inserted p =>
      simp only [well_formed_calls, Bool.and_eq_true, List.all_eq_true, bne_iff_ne] at hwf
      simp only [List.foldl_cons, required_approval_index.notify, live_after]
      apply ih
      · exact no_empty_bucket_object_inserted idx p hne
      · intro u q
        rw [mem_bucket_object_inserted, hmem]
        constructor
        · rintro (⟨p', hp', h1, h2⟩ | ⟨h1, h2⟩)
          · exact ⟨p', List.mem_append_left _ hp', h1, h2⟩
          · exact ⟨p, by simp, h2.symm, h1⟩
        · rintro ⟨p', hp', h1, h2⟩
          rcases List.mem_append.mp hp' with hp' | hp'
          · exact Or.inl ⟨p', hp', h1, h2⟩
          · rw [List.mem_singleton] at hp'
            subst hp'
            exact Or.inr ⟨h2, h1.symm⟩
      · rw [List.map_append, List.nodup_append]
        refine ⟨hnd, by simp, ?_⟩
        intro a ha hb
        simp only [List.map_cons, List.map_nil, List.mem_singleton] at hb
        obtain ⟨p', hp', rfl⟩ := List.mem_map.mp ha
        exact hwf.1 p' hp' hb
      · exact hwf.2
    | object_removed p =>
      simp only [well_formed_calls, Bool.and_eq_true, List.any_eq_true, beq_iff_eq,
        decide_eq_true_eq] at hwf
      simp only [List.foldl_cons, required_approval_index.notify, live_after]
      obtain ⟨⟨p0, hp0, hid, hsame⟩, hrest⟩ := hwf
      apply ih
      · exact no_empty_bucket_object_removed idx p hne
      · intro u q
        rw [mem_bucket_object_removed, hmem]
        constructor
        · rintro ⟨⟨p', hp', h1, h2⟩, hn⟩
          refine ⟨p', ?_, h1, h2⟩
          rw [List.mem_filter]
          refine ⟨hp', ?_⟩
          simp only [bne_iff_ne, ne_eq]
          intro hpp
          have hEq : p' = p0 := List.inj_on_of_nodup_map hnd hp' hp0 (hpp.trans hid.symm)
          subst hEq
          exact hn ⟨(references_of_same_approval_sets p' p hsame u).mp h2,
            h1.symm.trans hpp⟩
        · rintro ⟨p', hp', h1, h2⟩
          rw [List.mem_filter] at hp'
          simp only [bne_iff_ne, ne_eq] at hp'
          refine ⟨⟨p', hp'.1, h1, h2⟩, ?_⟩
          rintro ⟨_, hq⟩
          exact hp'.2 (h1.trans hq)
      · exact List.Nodup.sublist (List.Sublist.map _ (List.filter_sublist _)) hnd
      · exact hrest

/-- C3: for every sequence of `object_inserted` and `object_removed` notifications
starting from the empty index, in which an inserted proposal has an identifier no live
proposal has and a removed proposal has the identifier and the six approval sets of a
live one, proposal `p` is in the bucket of account `a` exactly when `p` is the
identifier of a live proposal having `a` in one of its six approval sets; and the
index is the one rebuilt from scratch by inserting all live proposals. -/
theorem required_approval_index_consistent (calls : List index_call)
    (hwf : well_formed_calls [] calls = true) :
    (∀ a p, p ∈ (calls.foldl required_approval_index.notify
        required_approval_index.empty).bucket a ↔
      ∃ q ∈ calls.foldl live_after [], q.id = p ∧ q.references a) ∧
    calls.foldl required_approval_index.notify required_approval_index.empty =
      rebuild_index (calls.foldl live_after []) := by
  have hinv := index_invariant_foldl calls required_approval_index.empty []
    no_empty_bucket_empty (by simp [required_approval_index.empty,
      required_approval_index.bucket]) (by simp) hwf
  refine ⟨hinv.2, ?_⟩
  apply required_approval_index_ext _ _ hinv.1
  · exact no_empty_bucket_foldl_object_inserted _ _ no_empty_bucket_empty
  · intro u
    ext q
    rw [hinv.2, rebuild_index, mem_bucket_foldl_object_inserted]
    simp [required_approval_index.empty, required_approval_index.bucket]

/-- Both sample proposals inserted and the first removed: the second is the only live
proposal, accounts 8 and 10 have the bucket `{2}`, and accounts 7 and 9 are no keys. -/
theorem required_approval_index_consistent_witness :
    well_formed_calls [] sample_calls = true ∧
    (sample_calls.foldl required_approval_index.notify required_approval_index.empty =
      rebuild_index (sample_calls.foldl live_after [])) ∧
    sample_calls.foldl live_after [] = [sample_proposal_2] ∧
    (sample_calls.foldl required_approval_index.notify
      required_approval_index.empty)._account_to_proposals 8 = some {2} ∧
    (sample_calls.foldl required_approval_index.notify
      required_approval_index.empty)._account_to_proposals 10 = some {2} ∧
    (sample_calls.foldl required_approval_index.notify
      required_approval_index.empty)._account_to_proposals 7 = none ∧
    (sample_calls.foldl required_approval_index.notify
      required_approval_index.empty)._account_to_proposals 9 = none :=
  ⟨by decide, (required_approval_index_consistent sample_calls (by decide)).2,
   by decide, by decide, by decide, by decide, by decide⟩

/-! ## Casting of custom votes, continued -/

/-- What a successful `do_evaluate` of a cast amounts to. -/
theorem cast_do_evaluate_ok_iff (H : time_point_sec) (d : database)
    (op : custom_vote_cast_operation) (r : void_result) :
    custom_vote_cast_evaluator.do_evaluate H d op = .ok r ↔
      (H ≤ d.head_block_time ∧ (d.accounts op.voter).isSome = true ∧
        ∃ poll, d.find_custom_vote_by_vid op.custom_vote_creator op.custom_vote_vid = some poll ∧
          d.head_block_time ≤ poll.vote_expired_time ∧
          poll.minimum_selected_items ≤ op.vote_result.card ∧
          op.vote_result.card ≤ poll.maximum_selected_items ∧
          ∃ stats, d.account_statistics op.voter = some stats ∧
            poll.required_asset_amount ≤ stats.get_votes_from_core_balance ∧
            ∃ m, op.vote_result.max = some m ∧ m < poll.options.length) := by
  unfold custom_vote_cast_evaluator.do_evaluate database.get_account_by_uid
    database.get_account_statistics_by_uid
  by_cases hH : H ≤ d.head_block_time
  · cases ha : d.accounts op.voter with
    | none => simp [hH]
    | some a =>
      cases hp : d.find_custom_vote_by_vid op.custom_vote_creator op.custom_vote_vid with
      | none => simp [hH]
      | some poll =>
        by_cases ht : d.head_block_time ≤ poll.vote_expired_time
        · by_cases hc : poll.minimum_selected_items ≤ op.vote_result.card ∧
              op.vote_result.card ≤ poll.maximum_selected_items
          · cases hs : d.account_statistics op.voter with
            | none => simp [hH, ht, hc]
            | some stats =>
              by_cases hv : poll.required_asset_amount ≤ stats.get_votes_from_core_balance
              · rcases hm : (op.vote_result.max : Option Nat) with _ | m
                · simp [hH, ht, hc, hv, hm]
                · by_cases hl : m < poll.options.length
                  · simp [hH, ht, hc, hv, hm, hl]
                    exact ⟨m, rfl, hl⟩
                  · simp [hH, ht, hc, hv, hm, hl]
                    intro x hx
                    have hmx : m = x := Option.some.inj hx
                    rw [← hmx]
                    exact not_lt.mp hl
              · simp [hH, ht, hc, hv]
          · simp only [ge_iff_le, hH, not_true_eq_false, if_false, ht, hc, not_false_eq_true,
              if_true]
            simp only [reduceCtorEq, Option.isSome_some, Option.some.injEq, exists_eq_left',
              true_and, false_iff, not_and]
            intro _ h1 h2
            exact absurd ⟨h1, h2⟩ hc
        · simp [hH, ht]
  · simp [hH]

/-- With the hardfork reached and the voter, the poll, the voter's statistics record
and the largest selected index at hand, `do_evaluate` of a cast is the chain of its
four remaining checks. -/
theorem cast_do_evaluate_eq (H : time_point_sec) (d : database)
    (op : custom_vote_cast_operation) (poll : custom_vote_object)
    (stats : _account_statistics_object) (m : Nat)
    (hH : H ≤ d.head_block_time)
    (ha : (d.accounts op.voter).isSome = true)
    (hpoll : d.find_custom_vote_by_vid op.custom_vote_creator op.custom_vote_vid = some poll)
    (hs : d.account_statistics op.voter = some stats)
    (hmax : op.vote_result.max = some m) :
    custom_vote_cast_evaluator.do_evaluate H d op =
      if ¬ (d.head_block_time ≤ poll.vote_expired_time) then .error .custom_vote_overdue
      else if ¬ (poll.minimum_selected_items ≤ op.vote_result.card ∧
                 op.vote_result.card ≤ poll.maximum_selected_items) then
        .error .vote_options_num_out_of_range
      else if ¬ (poll.required_asset_amount ≤ stats.get_votes_from_core_balance) then
        .error .balance_less_than_required
      else if ¬ (m < poll.options.length) then .error .option_not_existent
      else .ok {} := by
  obtain ⟨a, ha⟩ := Option.isSome_iff_exists.mp ha
  unfold custom_vote_cast_evaluator.do_evaluate database.get_account_by_uid
    database.get_account_statistics_by_uid
  simp only [ge_iff_le, hH, not_true_eq_false, if_false, ha, hpoll, hs, hmax]

/-- C11: for a cast whose other preconditions hold (hardfork reached, voter and poll
present, selection count within the bounds, stake sufficient, largest selected index
valid), `do_evaluate` succeeds exactly when the head block time is not after the
poll's `vote_expired_time`: it accepts the cast at the expiry time itself and rejects
it as overdue one second later or more. -/
theorem custom_vote_cast_expiry_boundary (H : time_point_sec) (d : database)
    (op : custom_vote_cast_operation) (poll : custom_vote_object)
    (stats : _account_statistics_object) (m : Nat)
    (hH : H ≤ d.head_block_time)
    (ha : (d.accounts op.voter).isSome = true)
    (hpoll : d.find_custom_vote_by_vid op.custom_vote_creator op.custom_vote_vid = some poll)
    (hmin : poll.minimum_selected_items ≤ op.vote_result.card)
    (hcnt : op.vote_result.card ≤ poll.maximum_selected_items)
    (hs : d.account_statistics op.voter = some stats)
    (hstake : poll.required_asset_amount ≤ stats.get_votes_from_core_balance)
    (hmax : op.vote_result.max = some m)
    (hm : m < poll.options.length) :
    (custom_vote_cast_evaluator.do_evaluate H d op = .ok {} ↔
      d.head_block_time ≤ poll.vote_expired_time) ∧
    (d.head_block_time = poll.vote_expired_time →
      custom_vote_cast_evaluator.do_evaluate H d op = .ok {}) ∧
    (poll.vote_expired_time + 1 ≤ d.head_block_time →
      custom_vote_cast_evaluator.do_evaluate H d op = .error .custom_vote_overdue) := by
  rw [cast_do_evaluate_eq H d op poll stats m hH ha hpoll hs hmax]
  simp only [hmin, hcnt, and_self, not_true_eq_false, if_false, hstake, hm]
  refine ⟨?_, ?_, ?_⟩
  · by_cases ht : d.head_block_time ≤ poll.vote_expired_time
    · simp [ht]
    · simp [ht]
  · intro ht
    rw [if_neg (not_not.mpr (le_of_eq ht))]
  · intro ht
    rw [if_pos (Nat.not_le.mpr ht)]

/-- The lifecycle scenario at its expiry (4600): the ballot `{0, 2}` is accepted at
head block time 4600 and rejected as overdue at head block time 4601. -/
theorem custom_vote_cast_expiry_boundary_witness :
    custom_vote_cast_evaluator.do_evaluate 500 (sample_ledger_with_poll_at 4600)
      (sample_cast {0, 2}) = .ok {} ∧
    custom_vote_cast_evaluator.do_evaluate 500 (sample_ledger_with_poll_at 4601)
      (sample_cast {0, 2}) = .error .custom_vote_overdue :=
  ⟨(custom_vote_cast_expiry_boundary 500 (sample_ledger_with_poll_at 4600) (sample_cast {0, 2})
      sample_poll sample_voter_statistics 2 (by decide) (by decide) rfl (by decide)
      (by decide) rfl (by decide) rfl (by decide)).2.1 rfl,
   (custom_vote_cast_expiry_boundary 500 (sample_ledger_with_poll_at 4601) (sample_cast {0, 2})
      sample_poll sample_voter_statistics 2 (by decide) (by decide) rfl (by decide)
      (by decide) rfl (by decide) rfl (by decide)).2.2 (by decide)⟩

/-- C12: whenever `do_evaluate` of a cast succeeds, every selected index, not only the
largest, is below the number of options of the target poll; and a cast on a stored
poll whose selection holds an index at or beyond the number of options is rejected. -/
theorem custom_vote_cast_indices_valid (H : time_point_sec) (d : database)
    (op : custom_vote_cast_operation) :
    (∀ r, custom_vote_cast_evaluator.do_evaluate H d op = .ok r →
      ∃ poll, d.find_custom_vote_by_vid op.custom_vote_creator op.custom_vote_vid = some poll ∧
        ∀ i ∈ op.vote_result, i < poll.options.length) ∧
    (∀ poll i,
      d.find_custom_vote_by_vid op.custom_vote_creator op.custom_vote_vid = some poll →
      i ∈ op.vote_result → poll.options.length ≤ i →
      (custom_vote_cast_evaluator.do_evaluate H d op).isOk = false) := by
  have key : ∀ r, custom_vote_cast_evaluator.do_evaluate H d op = .ok r →
      ∃ poll, d.find_custom_vote_by_vid op.custom_vote_creator op.custom_vote_vid = some poll ∧
        ∀ i ∈ op.vote_result, i < poll.options.length := by
    intro r hr
    obtain ⟨_, _, poll, hpoll, _, _, _, stats, _, _, m, hm, hlt⟩ :=
      (cast_do_evaluate_ok_iff H d op r).mp hr
    refine ⟨poll, hpoll, ?_⟩
    intro i hi
    have hle : (i : WithBot Nat) ≤ op.vote_result.max := Finset.le_max hi
    rw [hm] at hle
    exact lt_of_le_of_lt (WithBot.coe_le_coe.mp hle) hlt
  refine ⟨key, ?_⟩
  intro poll i hpoll hi hlen
  cases hres : custom_vote_cast_evaluator.do_evaluate H d op with
  | error e => rfl
  | ok r =>
    exfalso
    obtain ⟨poll', hpoll', hall⟩ := key r hres
    rw [hpoll] at hpoll'
    cases hpoll'
    exact absurd (hall i hi) (Nat.not_lt.mpr hlen)

/-- The lifecycle scenario: on the poll with three options the ballot `{5}` is
rejected, for its index; the accepted ballot `{0, 2}` has both indices below 3. -/
theorem custom_vote_cast_indices_valid_witness :
    (custom_vote_cast_evaluator.do_evaluate 500 sample_ledger_with_poll
      (sample_cast {5})).isOk = false ∧
    custom_vote_cast_evaluator.do_evaluate 500 sample_ledger_with_poll (sample_cast {5})
      = .error .option_not_existent ∧
    (∃ poll, sample_ledger_with_poll.find_custom_vote_by_vid 7 1 = some poll ∧
      ∀ i ∈ ({0, 2} : Finset Nat), i < poll.options.length) :=
  ⟨(custom_vote_cast_indices_valid 500 sample_ledger_with_poll (sample_cast {5})).2
      sample_poll 5 rfl (by decide) (by decide),
   rfl,
   (custom_vote_cast_indices_valid 500 sample_ledger_with_poll (sample_cast {0, 2})).1 {} rfl⟩

/-- C13: for a cast whose other preconditions hold (hardfork reached, voter and poll
present, poll not overdue, selection count within the bounds, largest selected index
valid), `do_evaluate` succeeds exactly when the voter's votes from the core balance
are at least the poll's `required_asset_amount`: a voter holding exactly the required
amount is accepted and one holding one unit less is rejected for its balance. -/
theorem custom_vote_cast_stake_threshold (H : time_point_sec) (d : database)
    (op : custom_vote_cast_operation) (poll : custom_vote_object)
    (stats : _account_statistics_object) (m : Nat)
    (hH : H ≤ d.head_block_time)
    (ha : (d.accounts op.voter).isSome = true)
    (hpoll : d.find_custom_vote_by_vid op.custom_vote_creator op.custom_vote_vid = some poll)
    (htime : d.head_block_time ≤ poll.vote_expired_time)
    (hmin : poll.minimum_selected_items ≤ op.vote_result.card)
    (hcnt : op.vote_result.card ≤ poll.maximum_selected_items)
    (hs : d.account_statistics op.voter = some stats)
    (hmax : op.vote_result.max = some m)
    (hm : m < poll.options.length) :
    (custom_vote_cast_evaluator.do_evaluate H d op = .ok {} ↔
      poll.required_asset_amount ≤ stats.get_votes_from_core_balance) ∧
    (stats.get_votes_from_core_balance = poll.required_asset_amount →
      custom_vote_cast_evaluator.do_evaluate H d op = .ok {}) ∧
    (stats.get_votes_from_core_balance = poll.required_asset_amount - 1 →
      custom_vote_cast_evaluator.do_evaluate H d op = .error .balance_less_than_required) := by
  rw [cast_do_evaluate_eq H d op poll stats m hH ha hpoll hs hmax]
  simp only [htime, hmin, hcnt, and_self, not_true_eq_false, if_false, hm]
  refine ⟨?_, ?_, ?_⟩
  · by_cases hv : poll.required_asset_amount ≤ stats.get_votes_from_core_balance
    · simp [hv]
    · simp [hv]
  · intro hv
    rw [if_neg (not_not.mpr (le_of_eq hv.symm))]
  · intro hv
    have hlt : ¬ poll.required_asset_amount ≤ stats.get_votes_from_core_balance := by
      rw [hv]
      intro hle
      linarith
    rw [if_pos hlt]

/-- The lifecycle scenario with required stake 100: account 8 is accepted with a stake
of exactly 100 and rejected with a stake of 99. -/
theorem custom_vote_cast_stake_threshold_witness :
    custom_vote_cast_evaluator.do_evaluate 500 (sample_ledger_with_stake 100)
      (sample_cast_low_stake {0, 2}) = .ok {} ∧
    custom_vote_cast_evaluator.do_evaluate 500 (sample_ledger_with_stake 99)
      (sample_cast_low_stake {0, 2}) = .error .balance_less_than_required :=
  ⟨(custom_vote_cast_stake_threshold 500 (sample_ledger_with_stake 100)
      (sample_cast_low_stake {0, 2}) sample_poll
      { last_custom_vote_sequence := 0, prepaid := 0, csaf := 0, core_balance_votes := 100 }
      2 (by decide) (by decide) rfl (by decide) (by decide) (by decide) rfl rfl
      (by decide)).2.1 rfl,
   (custom_vote_cast_stake_threshold 500 (sample_ledger_with_stake 99)
      (sample_cast_low_stake {0, 2}) sample_poll
      { last_custom_vote_sequence := 0, prepaid := 0, csaf := 0, core_balance_votes := 99 }
      2 (by decide) (by decide) rfl (by decide) (by decide) (by decide) rfl rfl
      (by decide)).2.2 rfl⟩

/-- C14: `do_apply` of a cast returns the empty result and the ledger it was given;
in particular every stored poll, the target poll included, keeps its tally. -/
theorem custom_vote_cast_do_apply_no_effect (d : database) (op : custom_vote_cast_operation) :
    custom_vote_cast_evaluator.do_apply d op = (d, .ok {}) ∧
    (custom_vote_cast_evaluator.do_apply d op).1.custom_votes = d.custom_votes ∧
    (∀ creator vid,
      ((custom_vote_cast_evaluator.do_apply d op).1.find_custom_vote_by_vid creator vid).map
        (fun o => o.vote_result) =
      (d.find_custom_vote_by_vid creator vid).map (fun o => o.vote_result)) :=
  ⟨rfl, rfl, fun _ _ => rfl⟩

/-! ## The account-to-proposal index, continued -/

/-- A notification keeps the index free of empty buckets. -/
theorem no_empty_bucket_notify (s : required_approval_index) (c : index_call)
    (h : s.no_empty_bucket) : (s.notify c).no_empty_bucket := by
  cases c with
  | object_inserted p => exact no_empty_bucket_object_inserted s p h
  | object_removed p => exact no_empty_bucket_object_removed s p h

/-- Notifications keep the index free of empty buckets. -/
theorem no_empty_bucket_foldl_notify (calls : List index_call) (s : required_approval_index)
    (h : s.no_empty_bucket) :
    (calls.foldl required_approval_index.notify s).no_empty_bucket := by
  induction calls generalizing s with
  | nil => exact h
  | cons c calls ih => exact ih _ (no_empty_bucket_notify s c h)

/-- C16: in every state reached from the empty index by `object_inserted` and
`object_removed` calls, whatever the proposals and their order, no bucket is empty, so
an account is a key of `_account_to_proposals` exactly when its bucket holds a
proposal; and `remove` on any index leaves an account without a bucket as it is,
erases the account's entry exactly when erasing the proposal empties the bucket, keeps
the bucket less the proposal otherwise, and touches no other account. -/
theorem required_approval_index_no_empty_bucket (calls : List index_call) :
    (∀ a b, (calls.foldl required_approval_index.notify
        required_approval_index.empty)._account_to_proposals a = some b → b.Nonempty) ∧
    (∀ a, ((calls.foldl required_approval_index.notify
        required_approval_index.empty)._account_to_proposals a).isSome = true ↔
      ((calls.foldl required_approval_index.notify
        required_approval_index.empty).bucket a).Nonempty) ∧
    (∀ (s : required_approval_index) (a : account_uid_type) (p : proposal_id_type),
      (s.remove a p)._account_to_proposals a =
        (match s._account_to_proposals a with
         | none => none
         | some b => if b.erase p = ∅ then none else some (b.erase p)) ∧
      (s._account_to_proposals a = none → s.remove a p = s) ∧
      (∀ u, u ≠ a → (s.remove a p)._account_to_proposals u = s._account_to_proposals u)) := by
  have hne := no_empty_bucket_foldl_notify calls required_approval_index.empty
    no_empty_bucket_empty
  refine ⟨hne, ?_, ?_⟩
  · intro a
    unfold required_approval_index.bucket
    cases hm : (calls.foldl required_approval_index.notify
        required_approval_index.empty)._account_to_proposals a with
    | none => simp
    | some b => simpa using hne a b hm
  · intro s a p
    refine ⟨?_, ?_, ?_⟩
    · unfold required_approval_index.remove
      cases hm : s._account_to_proposals a with
      | none => simp [hm]
      | some b =>
        by_cases he : b.erase p = ∅
        · simp [he]
        · simp [he]
    · intro hm
      unfold required_approval_index.remove
      simp [hm]
    · intro u hu
      unfold required_approval_index.remove
      cases hm : s._account_to_proposals a with
      | none => rfl
      | some b =>
        by_cases he : b.erase p = ∅
        · simp [he, hu]
        · simp [he, hu]

/-! ## Fees, continued -/

/-- C18: in a fee-exempt transaction (`skip_fee` set), `process_fee_options` succeeds
for every evaluator state, whatever its portions and the payer's balances, and returns
the ledger it was given: the payer's prepaid and csaf and the supply of the core asset
are unchanged. -/
theorem process_fee_options_skip_fee (CORE : asset_aid_type) (self : generic_evaluator)
    (d : database) (h : self.trx_state.skip_fee = true) :
    self.process_fee_options CORE d = (d, .ok ()) ∧
    (self.process_fee_options CORE d).1.account_statistics = d.account_statistics ∧
    (self.process_fee_options CORE d).1.asset_dynamic_data = d.asset_dynamic_data := by
  have : self.process_fee_options CORE d = (d, .ok ()) := by
    unfold generic_evaluator.process_fee_options
    simp [h]
  rw [this]
  exact ⟨rfl, rfl, rfl⟩

/-- A prepaid portion of 60 against a prepaid balance of 50 in a fee-exempt
transaction: the settlement succeeds and leaves the ledger as it was. -/
theorem process_fee_options_skip_fee_witness :
    sample_prepared_exempt.from_prepaid = 60 ∧
    (sample_ledger.account_statistics 7).map (fun s => s.prepaid) = some 50 ∧
    sample_prepared_exempt.process_fee_options 0 sample_ledger = (sample_ledger, .ok ()) :=
  ⟨rfl, rfl, (process_fee_options_skip_fee 0 sample_prepared_exempt sample_ledger rfl).1⟩

/-- The index after inserting both sample proposals and removing the first has the
key 8 with the bucket `{2}`; removing proposal 2 for account 8 erases that entry. -/
theorem required_approval_index_no_empty_bucket_witness :
    ({2} : Finset proposal_id_type).Nonempty ∧
    (((sample_calls.foldl required_approval_index.notify
        required_approval_index.empty).remove 8 2)._account_to_proposals 8 = none) ∧
    (((sample_calls.foldl required_approval_index.notify
        required_approval_index.empty).remove 8 2)._account_to_proposals 10 = some {2}) :=
  ⟨(required_approval_index_no_empty_bucket sample_calls).1 8 {2} (by decide),
   by decide,
   ((required_approval_index_no_empty_bucket sample_calls).2.2
      (sample_calls.foldl required_approval_index.notify required_approval_index.empty)
      8 2).2.2 10 (by decide) ▸ (by decide)⟩

/-- Capturing the statistics record keeps `trx_state`. -/
theorem capture_statistics_trx_state (self : generic_evaluator) (d : database) :
    (self.capture_statistics d).1.trx_state = self.trx_state := by
  unfold generic_evaluator.capture_statistics
  split
  · rfl
  · split <;> rfl

/-- The asset overload keeps `trx_state`. -/
theorem prepare_fee_asset_trx_state (CORE : asset_aid_type) (self : generic_evaluator)
    (d : database) (fee : asset) :
    (self.prepare_fee_asset CORE d fee).1.trx_state = self.trx_state := by
  unfold generic_evaluator.prepare_fee_asset
  simp only
  split
  · rfl
  · split
    · rfl
    · exact capture_statistics_trx_state _ d

/-- The fee-descriptor overload keeps `trx_state`. -/
theorem prepare_fee_trx_state (CORE : asset_aid_type) (self : generic_evaluator)
    (d : database) (fee : fee_type) :
    (self.prepare_fee CORE d fee).1.trx_state = self.trx_state := by
  rcases self with ⟨ts, ffa, tfp, sfb, sfp, sfc, acct, stats⟩
  rcases fee with ⟨total, _ | ⟨_ | fb, _ | fp, _ | fc⟩⟩ <;>
  (unfold generic_evaluator.prepare_fee generic_evaluator.capture_statistics
     database.get_account_statistics_by_uid
   simp only []
   split_ifs <;>
   first
   | rfl
   | (cases acct with
      | none => rfl
      | some uid => cases hst : d.account_statistics uid <;> simp [hst]))

/-- C17: every overload of `prepare_fee`, whether it returns or throws, leaves the
ledger as it was (the statistics records with their prepaid and csaf balances and the
dynamic data with the supply included) and leaves the evaluator's `trx_state` as it
was: what it writes is confined to the other members of the evaluator, which are
`fee_from_account`, `total_fee_paid`, `from_balance`, `from_prepaid`, `from_csaf`,
`fee_paying_account` and `fee_paying_account_statistics`. -/
theorem prepare_fee_frame (CORE : asset_aid_type) (self : generic_evaluator)
    (d : database) (call : prepare_fee_call) :
    (self.prepare_fee_step CORE d call).1.2 = d ∧
    (self.prepare_fee_step CORE d call).1.2.account_statistics = d.account_statistics ∧
    (self.prepare_fee_step CORE d call).1.2.asset_dynamic_data = d.asset_dynamic_data ∧
    (self.prepare_fee_step CORE d call).1.1.trx_state = self.trx_state := by
  refine ⟨?_, ?_, ?_, ?_⟩
  · cases call <;> rfl
  · cases call <;> rfl
  · cases call <;> rfl
  · cases call with
    | asset fee => exact prepare_fee_asset_trx_state CORE self d fee
    | uid_asset account_uid fee =>
      show (self.prepare_fee_uid_asset CORE d account_uid fee).1.trx_state = self.trx_state
      unfold generic_evaluator.prepare_fee_uid_asset
      split
      · rfl
      · exact prepare_fee_asset_trx_state CORE _ d fee
    | id_asset account_id fee =>
      show (self.prepare_fee_id_asset CORE d account_id fee).1.trx_state = self.trx_state
      unfold generic_evaluator.prepare_fee_id_asset
      split
      · rfl
      · exact prepare_fee_asset_trx_state CORE _ d fee
    | fee_type fee => exact prepare_fee_trx_state CORE self d fee
    | uid_fee_type account_uid fee =>
      show (self.prepare_fee_uid CORE d account_uid fee).1.trx_state = self.trx_state
      unfold generic_evaluator.prepare_fee_uid
      split
      · rfl
      · exact prepare_fee_trx_state CORE _ d fee

/-- The members of the evaluator after an accepted `prepare_fee(const fee_type&)`:
the total is the descriptor's, and each portion is the descriptor's where it names
one and is left as it was where it does not. -/
theorem prepare_fee_ok_fields (CORE : asset_aid_type) (self ev : generic_evaluator)
    (d : database) (fee : fee_type) (h : self.prepare_fee CORE d fee = (ev, .ok ())) :
    ev.total_fee_paid = fee.total.amount ∧
    ev.from_balance =
      (match fee.options with
       | none => fee.total.amount
       | some fov =>
         match fov.from_balance with
         | some b => b.amount
         | none => self.fee_from_account.amount) ∧
    ev.from_prepaid =
      (match fee.options with
       | none => self.from_prepaid
       | some fov =>
         match fov.from_prepaid with
         | some a => a.amount
         | none => self.from_prepaid) ∧
    ev.from_csaf =
      (match fee.options with
       | none => self.from_csaf
       | some fov =>
         match fov.from_csaf with
         | some a => a.amount
         | none => self.from_csaf) := by
  rcases self with ⟨ts, ffa, tfp, sfb, sfp, sfc, acct, stats⟩
  rcases fee with ⟨total, _ | ⟨_ | fb, _ | fp, _ | fc⟩⟩ <;>
  (unfold generic_evaluator.prepare_fee generic_evaluator.capture_statistics
     database.get_account_statistics_by_uid at h
   simp only [] at h
   split_ifs at h <;>
   first
   | (simp at h)
   | (cases acct with
      | none => simp at h
      | some uid =>
        cases hst : d.account_statistics uid with
        | none => simp [hst] at h
        | some st =>
          simp [hst] at h
          subst h
          exact ⟨rfl, rfl, rfl, rfl⟩))

/-- C19, as amended: for every fee descriptor that `prepare_fee(const fee_type&)`
accepts on an evaluator as constructed (amounts zero, `fee_from_account` of amount
zero), `total_fee_paid` is the descriptor's total and each resolved portion is the
amount of the descriptor's portion, zero for a portion it does not name; so for a flat
fee without options `from_balance` is the total, `from_prepaid` and `from_csaf` are
zero and the portions add up to the total, and for a fee with options the portions
add up to the total exactly when the descriptor's own portions do. -/
theorem prepare_fee_portions (CORE : asset_aid_type) (self ev : generic_evaluator)
    (d : database) (fee : fee_type)
    (hb : self.fee_from_account.amount = 0) (hp : self.from_prepaid = 0)
    (hc : self.from_csaf = 0)
    (h : self.prepare_fee CORE d fee = (ev, .ok ())) :
    ev.total_fee_paid = fee.total.amount ∧
    (fee.options = none →
      ev.from_balance = fee.total.amount ∧ ev.from_prepaid = 0 ∧ ev.from_csaf = 0 ∧
      ev.from_balance + ev.from_prepaid + ev.from_csaf = ev.total_fee_paid) ∧
    (∀ fov, fee.options = some fov →
      ev.from_balance = portion_amount fov.from_balance ∧
      ev.from_prepaid = portion_amount fov.from_prepaid ∧
      ev.from_csaf = portion_amount fov.from_csaf ∧
      (ev.from_balance + ev.from_prepaid + ev.from_csaf = ev.total_fee_paid ↔
        portion_amount fov.from_balance + portion_amount fov.from_prepaid
          + portion_amount fov.from_csaf = fee.total.amount)) := by
  obtain ⟨ht, h1, h2, h3⟩ := prepare_fee_ok_fields CORE self ev d fee h
  refine ⟨ht, ?_, ?_⟩
  · intro ho
    rw [ho] at h1 h2 h3
    simp only at h1 h2 h3
    rw [h1, h2, h3, ht, hp, hc]
    exact ⟨rfl, rfl, rfl, by simp⟩
  · intro fov ho
    rw [ho] at h1 h2 h3
    simp only at h1 h2 h3
    have e1 : ev.from_balance = portion_amount fov.from_balance := by
      rw [h1]
      unfold portion_amount
      cases fov.from_balance with
      | none => exact hb
      | some b => rfl
    have e2 : ev.from_prepaid = portion_amount fov.from_prepaid := by
      rw [h2]
      unfold portion_amount
      cases fov.from_prepaid with
      | none => exact hp
      | some a => rfl
    have e3 : ev.from_csaf = portion_amount fov.from_csaf := by
      rw [h3]
      unfold portion_amount
      cases fov.from_csaf with
      | none => exact hc
      | some a => rfl
    refine ⟨e1, e2, e3, ?_⟩
    rw [e1, e2, e3, ht]

/-- The claim C19 as stated fails in two ways: `prepare_fee` accepts a fee of 40 whose
options name a balance portion of 10 only, and then the portions add up to 10 and not
to the total of 40; and a flat fee prepared on an evaluator that has prepared a
prepaid portion of 40 before keeps `from_prepaid` at 40. -/
theorem prepare_fee_portions_counterexample :
    (generic_evaluator.prepare_fee_uid 0 sample_evaluator sample_ledger 7
      sample_fee_short_split).2 = .ok () ∧
    (sample_prepared sample_ledger sample_fee_short_split).from_balance
      + (sample_prepared sample_ledger sample_fee_short_split).from_prepaid
      + (sample_prepared sample_ledger sample_fee_short_split).from_csaf = 10 ∧
    (sample_prepared sample_ledger sample_fee_short_split).total_fee_paid = 40 ∧
    sample_fee_flat.options = none ∧
    (generic_evaluator.prepare_fee 0 (sample_prepared sample_ledger (sample_fee_from_prepaid 40))
      sample_ledger sample_fee_flat).2 = .ok () ∧
    (generic_evaluator.prepare_fee 0 (sample_prepared sample_ledger (sample_fee_from_prepaid 40))
      sample_ledger sample_fee_flat).1.from_prepaid = 40 := by
  refine ⟨rfl, rfl, rfl, rfl, rfl, rfl⟩

/-- On the sample ledger, from the evaluator as constructed with payer 7: the flat fee
of 20 resolves to 20 from the balance and nothing else, and the fee of 40 all from
prepaid resolves to 0, 40 and 0. -/
theorem prepare_fee_portions_witness :
    ((generic_evaluator.prepare_fee 0 { sample_evaluator with fee_paying_account := some 7 }
        sample_ledger sample_fee_flat).1.from_balance = 20 ∧
      (generic_evaluator.prepare_fee 0 { sample_evaluator with fee_paying_account := some 7 }
        sample_ledger sample_fee_flat).1.from_prepaid = 0 ∧
      (generic_evaluator.prepare_fee 0 { sample_evaluator with fee_paying_account := some 7 }
        sample_ledger sample_fee_flat).1.from_csaf = 0 ∧
      (generic_evaluator.prepare_fee 0 { sample_evaluator with fee_paying_account := some 7 }
        sample_ledger sample_fee_flat).1.from_balance
      + (generic_evaluator.prepare_fee 0 { sample_evaluator with fee_paying_account := some 7 }
        sample_ledger sample_fee_flat).1.from_prepaid
      + (generic_evaluator.prepare_fee 0 { sample_evaluator with fee_paying_account := some 7 }
        sample_ledger sample_fee_flat).1.from_csaf
      = (generic_evaluator.prepare_fee 0 { sample_evaluator with fee_paying_account := some 7 }
        sample_ledger sample_fee_flat).1.total_fee_paid) ∧
    (generic_evaluator.prepare_fee 0 { sample_evaluator with fee_paying_account := some 7 }
      sample_ledger (sample_fee_from_prepaid 40)).1.from_prepaid = 40 :=
  ⟨(prepare_fee_portions 0 { sample_evaluator with fee_paying_account := some 7 }
      (generic_evaluator.prepare_fee 0 { sample_evaluator with fee_paying_account := some 7 }
        sample_ledger sample_fee_flat).1
      sample_ledger sample_fee_flat rfl rfl rfl rfl).2.1 rfl,
   ((prepare_fee_portions 0 { sample_evaluator with fee_paying_account := some 7 }
      (generic_evaluator.prepare_fee 0 { sample_evaluator with fee_paying_account := some 7 }
        sample_ledger (sample_fee_from_prepaid 40)).1
      sample_ledger (sample_fee_from_prepaid 40) rfl rfl rfl rfl).2.2 _ rfl).2.1⟩

/-! ## The evaluate-apply lifecycle -/

/-- The keys of a `flat_map` after `map[k] = v`. -/
theorem mem_keys_flat_map_assign {V : Type} (m : List (Nat × V)) (k k0 : Nat) (v : V) :
    k0 ∈ (flat_map_assign m k v).map Prod.fst ↔ k0 = k ∨ k0 ∈ m.map Prod.fst := by
  induction m with
  | nil => simp [flat_map_assign]
  | cons kv m ih =>
    obtain ⟨k', v'⟩ := kv
    unfold flat_map_assign
    by_cases h1 : k < k'
    · simp [h1]
    · by_cases h2 : k = k'
      · subst h2
        simp
      · simp only [h1, h2, if_false, List.map_cons, List.mem_cons, ih]
        tauto

/-- The values of a `flat_map` after `map[k] = v`, when `v` was its only value. -/
theorem values_flat_map_assign {V : Type} (m : List (Nat × V)) (k : Nat) (v : V)
    (h : ∀ kv ∈ m, kv.2 = v) : ∀ kv ∈ flat_map_assign m k v, kv.2 = v := by
  induction m with
  | nil =>
    intro kv hkv
    simp only [flat_map_assign, List.mem_singleton] at hkv
    rw [hkv]
  | cons kv' m ih =>
    obtain ⟨k', v'⟩ := kv'
    intro kv hkv
    unfold flat_map_assign at hkv
    by_cases h1 : k < k'
    · simp only [h1, if_true, List.mem_cons] at hkv
      rcases hkv with rfl | rfl | hkv
      · rfl
      · exact h _ (List.mem_cons_self _ _)
      · exact h _ (List.mem_cons_of_mem _ hkv)
    · by_cases h2 : k = k'
      · subst h2
        simp only [lt_self_iff_false, if_false, if_true, List.mem_cons] at hkv
        rcases hkv with rfl | hkv
        · rfl
        · exact h _ (List.mem_cons_of_mem _ hkv)
      · simp only [h1, h2, if_false, List.mem_cons] at hkv
        rcases hkv with rfl | hkv
        · exact h _ (List.mem_cons_self _ _)
        · exact ih (fun x hx => h x (List.mem_cons_of_mem _ hx)) kv hkv

/-- The signature map built from a list of keys: its keys and its values. -/
theorem signature_map_foldl (keys : List public_key_type) (st : signature_type)
    (m : List (public_key_type × signature_type)) (hm : ∀ kv ∈ m, kv.2 = st) :
    (∀ k, k ∈ (keys.foldl (fun m key => flat_map_assign m key st) m).map Prod.fst ↔
      k ∈ keys ∨ k ∈ m.map Prod.fst) ∧
    (∀ kv ∈ keys.foldl (fun m key => flat_map_assign m key st) m, kv.2 = st) := by
  induction keys generalizing m with
  | nil => exact ⟨fun k => by simp, hm⟩
  | cons key keys ih =>
    obtain ⟨h1, h2⟩ := ih (flat_map_assign m key st) (values_flat_map_assign m key st hm)
    refine ⟨?_, h2⟩
    intro k
    rw [List.foldl_cons, h1, mem_keys_flat_map_assign, List.mem_cons]
    tauto

/-- C15: with `verify_authority` taken as an oracle, `is_authorized_to_execute` returns
`true` with exactly the oracle's signature information when the oracle returns, and
`false` with the default, empty signature information, without raising, when the
oracle throws; either way the ledger it returns is the one it was given; and the
signature map it hands to the oracle has exactly the keys of `available_key_approvals`,
each with the blank signature. -/
theorem is_authorized_to_execute_outcome (ENABLE_HEAD_FORK_04 : Nat)
    (verify_authority : verify_authority_arguments → Except failure signed_information)
    (p : proposal_object) (db : database) :
    (∀ s, verify_authority (p.verify_authority_call ENABLE_HEAD_FORK_04 db) = .ok s →
      p.is_authorized_to_execute ENABLE_HEAD_FORK_04 verify_authority db = (db, (true, s))) ∧
    (∀ e, verify_authority (p.verify_authority_call ENABLE_HEAD_FORK_04 db) = .error e →
      p.is_authorized_to_execute ENABLE_HEAD_FORK_04 verify_authority db
        = (db, (false, { entries := [] }))) ∧
    (p.is_authorized_to_execute ENABLE_HEAD_FORK_04 verify_authority db).1 = db ∧
    (∀ k, k ∈ (p.verify_authority_call ENABLE_HEAD_FORK_04 db).sigs.map Prod.fst ↔
      k ∈ p.available_key_approvals) ∧
    (∀ kv ∈ (p.verify_authority_call ENABLE_HEAD_FORK_04 db).sigs, kv.2 = 0) := by
  refine ⟨?_, ?_, ?_, ?_, ?_⟩
  · intro s hs
    unfold proposal_object.is_authorized_to_execute
    simp only [hs]
  · intro e he
    unfold proposal_object.is_authorized_to_execute
    simp only [he]
  · unfold proposal_object.is_authorized_to_execute
    cases verify_authority (p.verify_authority_call ENABLE_HEAD_FORK_04 db) <;> rfl
  · intro k
    have h := (signature_map_foldl p.available_key_approvals 0 [] (by simp)).1 k
    simpa [proposal_object.verify_authority_call] using h
  · intro kv hkv
    exact (signature_map_foldl p.available_key_approvals 0 [] (by simp)).2 kv hkv

/-- With the stand-in verification: the proposal approved by account 7 and the keys 5
and 3 is authorized, and the verification saw the signature map with the keys 3 and
5; the proposal without that approval is answered with `false` and the empty
signature information. -/
theorem is_authorized_to_execute_outcome_witness :
    sample_proposal_approved.is_authorized_to_execute 4 sample_verify_authority sample_ledger
      = (sample_ledger, (true, { entries := [(3, 0), (5, 0)] })) ∧
    sample_proposal_pending.is_authorized_to_execute 4 sample_verify_authority sample_ledger
      = (sample_ledger, (false, { entries := [] })) :=
  ⟨(is_authorized_to_execute_outcome 4 sample_verify_authority sample_proposal_approved
      sample_ledger).1 { entries := [(3, 0), (5, 0)] } rfl,
   (is_authorized_to_execute_outcome 4 sample_verify_authority sample_proposal_pending
      sample_ledger).2.1 .authority_not_satisfied rfl⟩

/-! ## Transfers -/

/-- C21: for every transfer and either value of the hardfork flag, exactly one of
`get_required_active_uid_authorities` and `get_required_secondary_uid_authorities`
inserts the `from` account and the other leaves the set as it is, so no other account
is inserted: the active one inserts when `some_from_balance()` holds, which is when
the extensions are absent or `from_balance` is present with a positive amount, and the
secondary one inserts otherwise. -/
theorem transfer_required_authority (op : transfer_operation) (a : Finset account_uid_type)
    (enabled_hardfork : Bool) :
    (op.some_from_balance = true ↔
      (op.extensions = none ∨
        ∃ value from_balance, op.extensions = some value ∧
          value.from_balance = some from_balance ∧ 0 < from_balance.amount)) ∧
    (op.some_from_balance = true →
      op.get_required_active_uid_authorities a enabled_hardfork = insert op.«from» a ∧
      op.get_required_secondary_uid_authorities a enabled_hardfork = a) ∧
    (op.some_from_balance = false →
      op.get_required_active_uid_authorities a enabled_hardfork = a ∧
      op.get_required_secondary_uid_authorities a enabled_hardfork = insert op.«from» a) := by
  refine ⟨?_, ?_, ?_⟩
  · unfold transfer_operation.some_from_balance
    cases he : op.extensions with
    | none => simp
    | some value =>
      cases hb : value.from_balance with
      | none => simp [hb]
      | some b => simp [hb]
  · intro h
    simp [transfer_operation.get_required_active_uid_authorities,
      transfer_operation.get_required_secondary_uid_authorities, h]
  · intro h
    simp [transfer_operation.get_required_active_uid_authorities,
      transfer_operation.get_required_secondary_uid_authorities, h]

/-- A transfer without extensions needs the active authority of account 7; a transfer
whose extension takes the amount from prepaid needs its secondary authority. -/
theorem transfer_required_authority_witness :
    ((sample_transfer none).get_required_active_uid_authorities ∅ true = insert 7 ∅ ∧
      (sample_transfer none).get_required_secondary_uid_authorities ∅ true = ∅) ∧
    ((sample_transfer (some { from_prepaid := some { amount := 10, asset_id := 0 } })
        ).get_required_active_uid_authorities ∅ false = ∅ ∧
      (sample_transfer (some { from_prepaid := some { amount := 10, asset_id := 0 } })
        ).get_required_secondary_uid_authorities ∅ false = insert 7 ∅) :=
  ⟨(transfer_required_authority (sample_transfer none) ∅ true).2.1 rfl,
   (transfer_required_authority
      (sample_transfer (some { from_prepaid := some { amount := 10, asset_id := 0 } }))
      ∅ false).2.2 rfl⟩

/-! ## Assets -/

/-- C22: for an asset whose dynamic data record is stored, `reserved` returns the
larger of 0 and `options.max_supply - current_supply`: never a negative amount, the
difference itself whenever `current_supply <= max_supply`, and 0 whenever
`current_supply >= max_supply`. -/
theorem asset_reserved (self : asset_object) (db : database)
    (dynamic_data : asset_dynamic_data_object)
    (h : db.asset_dynamic_data self.dynamic_asset_data_id = some dynamic_data) :
    self.reserved db = .ok (max 0 (self.max_supply - dynamic_data.current_supply)) ∧
    (0 : share_type) ≤ max 0 (self.max_supply - dynamic_data.current_supply) ∧
    (dynamic_data.current_supply ≤ self.max_supply →
      self.reserved db = .ok (self.max_supply - dynamic_data.current_supply)) ∧
    (self.max_supply ≤ dynamic_data.current_supply → self.reserved db = .ok 0) := by
  have hr : self.reserved db = .ok (max 0 (self.max_supply - dynamic_data.current_supply)) := by
    unfold asset_object.reserved
    simp only [h]
  rw [hr]
  refine ⟨rfl, le_max_left _ _, ?_, ?_⟩
  · intro hle
    rw [max_eq_right (sub_nonneg.mpr hle)]
  · intro hle
    rw [max_eq_left (sub_nonpos.mpr hle)]

/-- The core asset of the sample ledger: maximum supply 1000000, current supply 1000,
reserved 999000. -/
theorem asset_reserved_witness :
    sample_core_asset.reserved sample_ledger = .ok 999000 ∧
    sample_core_asset.reserved sample_ledger
      = .ok (max 0 (sample_core_asset.max_supply - 1000)) :=
  ⟨rfl,
   (asset_reserved sample_core_asset sample_ledger
      { asset_id := 0, current_supply := 1000, accumulated_fees := 0 } rfl).1⟩

/-! ## The deprecated balance adjustment -/

/-- C23: the entry point `db_adjust_balance(const account_id_type&, asset)` fails for
every account identifier and every asset, from every evaluator state, and returns the
ledger it was given. -/
theorem db_adjust_balance_deprecated (self : generic_evaluator) (d : database)
    (fee_payer : object_id_type) (fee_from_account : asset) :
    self.db_adjust_balance_id d fee_payer fee_from_account = (d, .error .deprecated) ∧
    (self.db_adjust_balance_id d fee_payer fee_from_account).2.isOk = false ∧
    (self.db_adjust_balance_id d fee_payer fee_from_account).1 = d :=
  ⟨rfl, rfl, rfl⟩

/-! ## Updates of proposals -/

/-- Inserting the members of a list into a set yields the union. -/
theorem foldl_insert_eq_union (l : List account_uid_type) (a : Finset account_uid_type) :
    l.foldl (fun a i => insert i a) a = a ∪ l.toFinset := by
  induction l generalizing a with
  | nil => simp
  | cons x l ih =>
    rw [List.foldl_cons, ih]
    ext y
    simp only [Finset.mem_union, Finset.mem_insert, List.toFinset_cons]
    tauto

/-- C29: each of the three `get_required_*_uid_authorities` of a proposal update only
adds to the set it is given: the result is the given set united with that tier's
approvals to add and approvals to remove and, for the active tier only, with the
fee-paying account exactly when the hardfork flag is set; the secondary and the owner
tier give the same result for both values of the flag. -/
theorem proposal_update_required_uid_authorities (op : proposal_update_operation)
    (a : Finset account_uid_type) (enabled_hardfork : Bool) :
    op.get_required_secondary_uid_authorities a enabled_hardfork =
      a ∪ op.secondary_approvals_to_add.toFinset ∪ op.secondary_approvals_to_remove.toFinset ∧
    op.get_required_active_uid_authorities a enabled_hardfork =
      a ∪ op.active_approvals_to_add.toFinset ∪ op.active_approvals_to_remove.toFinset ∪
        (if enabled_hardfork then {op.fee_paying_account} else ∅) ∧
    op.get_required_owner_uid_authorities a enabled_hardfork =
      a ∪ op.owner_approvals_to_add.toFinset ∪ op.owner_approvals_to_remove.toFinset ∧
    op.get_required_secondary_uid_authorities a true =
      op.get_required_secondary_uid_authorities a false ∧
    op.get_required_owner_uid_authorities a true =
      op.get_required_owner_uid_authorities a false := by
  refine ⟨?_, ?_, ?_, rfl, rfl⟩
  · unfold proposal_update_operation.get_required_secondary_uid_authorities
    simp only [foldl_insert_eq_union]
  · unfold proposal_update_operation.get_required_active_uid_authorities
    simp only [foldl_insert_eq_union]
    cases enabled_hardfork with
    | false => simp
    | true =>
      ext y
      simp only [if_true, Finset.mem_insert, Finset.mem_union, Finset.mem_singleton]
      tauto
  · unfold proposal_update_operation.get_required_owner_uid_authorities
    simp only [foldl_insert_eq_union]

/-! ## The hardfork gate of custom votes -/

/-- C30: on a ledger whose head block time is before `HARDFORK_0_4_TIME`, `do_evaluate`
of a creation and `do_evaluate` of a cast fail on the hardfork assertion for every
operation and from every evaluator state, and the run of either operation leaves the
ledger as it was; on a ledger whose head block time is `HARDFORK_0_4_TIME` neither
fails on the hardfork assertion. -/
theorem custom_vote_hardfork_gate (H : time_point_sec) (d : database)
    (self : custom_vote_create_evaluator) (create : custom_vote_create_operation)
    (cast : custom_vote_cast_operation) :
    (d.head_block_time < H →
      custom_vote_create_evaluator.do_evaluate H self d create
        = (self, .error .hardfork_0_4_not_reached) ∧
      run_custom_vote_create H d create = (d, .error .hardfork_0_4_not_reached) ∧
      custom_vote_cast_evaluator.do_evaluate H d cast = .error .hardfork_0_4_not_reached ∧
      run_custom_vote_cast H d cast = (d, .error .hardfork_0_4_not_reached)) ∧
    (d.head_block_time = H →
      (custom_vote_create_evaluator.do_evaluate H self d create).2
        ≠ .error .hardfork_0_4_not_reached ∧
      custom_vote_cast_evaluator.do_evaluate H d cast ≠ .error .hardfork_0_4_not_reached) := by
  constructor
  · intro hlt
    have hn : ¬ H ≤ d.head_block_time := Nat.not_le.mpr hlt
    have h1 : ∀ self', custom_vote_create_evaluator.do_evaluate H self' d create
        = (self', .error .hardfork_0_4_not_reached) := by
      intro self'
      unfold custom_vote_create_evaluator.do_evaluate
      simp only [ge_iff_le, hn, not_false_eq_true, if_true]
    have h2 : custom_vote_cast_evaluator.do_evaluate H d cast
        = .error .hardfork_0_4_not_reached := by
      unfold custom_vote_cast_evaluator.do_evaluate
      simp only [ge_iff_le, hn, not_false_eq_true, if_true]
    refine ⟨h1 self, run_custom_vote_create_of_error H d create _ _ (h1 {}), h2, ?_⟩
    unfold run_custom_vote_cast
    rw [h2]
  · intro heq
    have hH : H ≤ d.head_block_time := le_of_eq heq.symm
    constructor
    · unfold custom_vote_create_evaluator.do_evaluate database.get_account_by_uid
        database.get_account_statistics_by_uid database.get_asset_by_aid
      simp only [ge_iff_le, hH, not_true_eq_false, if_false]
      cases d.accounts create.custom_vote_creator <;>
        cases d.account_statistics create.custom_vote_creator <;>
        cases d.assets create.vote_asset_id <;>
        (try simp only []) <;> (try split_ifs) <;> simp
    · unfold custom_vote_cast_evaluator.do_evaluate database.get_account_by_uid
        database.get_account_statistics_by_uid
      simp only [ge_iff_le, hH, not_true_eq_false, if_false]
      cases d.accounts cast.voter <;>
        cases d.find_custom_vote_by_vid cast.custom_vote_creator cast.custom_vote_vid <;>
        cases d.account_statistics cast.voter <;>
        rcases (cast.vote_result.max : Option Nat) with _ | m <;>
        (try simp only []) <;> (try split_ifs) <;> simp

/-- On the sample ledger, whose head block time is 1000: with the hardfork at 1001 the
sample creation and the sample ballot fail on the hardfork assertion, and with the
hardfork at 1000 the sample creation passes. -/
theorem custom_vote_hardfork_gate_witness :
    (custom_vote_create_evaluator.do_evaluate 1001 {} sample_ledger sample_create
        = ({}, .error .hardfork_0_4_not_reached) ∧
      run_custom_vote_create 1001 sample_ledger sample_create
        = (sample_ledger, .error .hardfork_0_4_not_reached) ∧
      custom_vote_cast_evaluator.do_evaluate 1001 sample_ledger (sample_cast {0, 2})
        = .error .hardfork_0_4_not_reached ∧
      run_custom_vote_cast 1001 sample_ledger (sample_cast {0, 2})
        = (sample_ledger, .error .hardfork_0_4_not_reached)) ∧
    (custom_vote_create_evaluator.do_evaluate 1000 {} sample_ledger sample_create).2
      ≠ .error .hardfork_0_4_not_reached ∧
    (custom_vote_create_evaluator.do_evaluate 1000 {} sample_ledger sample_create).2 = .ok {} :=
  ⟨(custom_vote_hardfork_gate 1001 sample_ledger {} sample_create (sample_cast {0, 2})).1
      (by decide),
   ((custom_vote_hardfork_gate 1000 sample_ledger {} sample_create (sample_cast {0, 2})).2
      rfl).1,
   rfl⟩

/-- One loop of `validate` succeeds exactly when no member of the set to add is in the
set to remove, and fails on the add-and-remove assertion otherwise. -/
theorem assert_none_removed_eq (to_remove to_add : List Nat) :
    assert_none_removed to_remove to_add =
      if ∀ a ∈ to_add, a ∉ to_remove then .ok () else .error .add_and_remove_approval := by
  induction to_add with
  | nil => simp [assert_none_removed]
  | cons a rest ih =>
    unfold assert_none_removed
    by_cases h : a ∈ to_remove
    · have hn : ¬ ∀ b ∈ a :: rest, b ∉ to_remove := fun hall => hall a (List.mem_cons_self _ _) h
      simp only [h, not_true_eq_false, not_false_eq_true, if_true, hn, if_false]
    · rw [if_neg (not_not.mpr h), ih]
      by_cases hr : ∀ b ∈ rest, b ∉ to_remove
      · have hall : ∀ b ∈ a :: rest, b ∉ to_remove := by
          intro b hb
          rcases List.mem_cons.mp hb with rfl | hb
          · exact h
          · exact hr b hb
        rw [if_pos hr, if_pos hall]
      · have hn : ¬ ∀ b ∈ a :: rest, b ∉ to_remove :=
          fun hall => hr (fun b hb => hall b (List.mem_cons_of_mem _ hb))
        rw [if_neg hr, if_neg hn]

/-- C27: once the fee check and the fee-paying-account check have passed, `validate`
of a proposal update succeeds exactly when one of the eight sets to add or to remove
has a member and, for each of the secondary, active, owner and key approvals, no
member of the set to add is in the set to remove; an update that changes nothing
fails, and so does an update that adds and removes the same account or key at one
tier. -/
theorem proposal_update_validate_iff
    (validate_op_fee : fee_type → Except failure Unit)
    (validate_account_uid : account_uid_type → Except failure Unit)
    (op : proposal_update_operation)
    (hfee : validate_op_fee op.fee = .ok ())
    (hacc : validate_account_uid op.fee_paying_account = .ok ()) :
    (op.validate validate_op_fee validate_account_uid = .ok () ↔
      ((op.secondary_approvals_to_add ≠ [] ∨ op.secondary_approvals_to_remove ≠ [] ∨
        op.active_approvals_to_add ≠ [] ∨ op.active_approvals_to_remove ≠ [] ∨
        op.owner_approvals_to_add ≠ [] ∨ op.owner_approvals_to_remove ≠ [] ∨
        op.key_approvals_to_add ≠ [] ∨ op.key_approvals_to_remove ≠ []) ∧
       (∀ a ∈ op.secondary_approvals_to_add, a ∉ op.secondary_approvals_to_remove) ∧
       (∀ a ∈ op.active_approvals_to_add, a ∉ op.active_approvals_to_remove) ∧
       (∀ a ∈ op.owner_approvals_to_add, a ∉ op.owner_approvals_to_remove) ∧
       (∀ k ∈ op.key_approvals_to_add, k ∉ op.key_approvals_to_remove))) ∧
    ((op.secondary_approvals_to_add = [] ∧ op.secondary_approvals_to_remove = [] ∧
      op.active_approvals_to_add = [] ∧ op.active_approvals_to_remove = [] ∧
      op.owner_approvals_to_add = [] ∧ op.owner_approvals_to_remove = [] ∧
      op.key_approvals_to_add = [] ∧ op.key_approvals_to_remove = []) →
      op.validate validate_op_fee validate_account_uid = .error .no_approval_change) := by
  unfold proposal_update_operation.validate
  simp only [hfee, hacc, assert_none_removed_eq, not_not, Bool.and_eq_true, List.isEmpty_iff]
  constructor
  · by_cases he : (((((((op.secondary_approvals_to_add = [] ∧
        op.secondary_approvals_to_remove = []) ∧ op.active_approvals_to_add = []) ∧
        op.active_approvals_to_remove = []) ∧ op.owner_approvals_to_add = []) ∧
        op.owner_approvals_to_remove = []) ∧ op.key_approvals_to_add = []) ∧
        op.key_approvals_to_remove = [])
    · rw [if_pos he]
      obtain ⟨⟨⟨⟨⟨⟨⟨h1, h2⟩, h3⟩, h4⟩, h5⟩, h6⟩, h7⟩, h8⟩ := he
      simp [h1, h2, h3, h4, h5, h6, h7, h8]
    · rw [if_neg he]
      have hne : op.secondary_approvals_to_add ≠ [] ∨ op.secondary_approvals_to_remove ≠ [] ∨
          op.active_approvals_to_add ≠ [] ∨ op.active_approvals_to_remove ≠ [] ∨
          op.owner_approvals_to_add ≠ [] ∨ op.owner_approvals_to_remove ≠ [] ∨
          op.key_approvals_to_add ≠ [] ∨ op.key_approvals_to_remove ≠ [] := by
        by_contra hc
        simp only [not_or, not_not] at hc
        exact he ⟨⟨⟨⟨⟨⟨⟨hc.1, hc.2.1⟩, hc.2.2.1⟩, hc.2.2.2.1⟩, hc.2.2.2.2.1⟩,
          hc.2.2.2.2.2.1⟩, hc.2.2.2.2.2.2.1⟩, hc.2.2.2.2.2.2.2⟩
      by_cases c1 : ∀ a ∈ op.secondary_approvals_to_add, a ∉ op.secondary_approvals_to_remove
      · by_cases c2 : ∀ a ∈ op.active_approvals_to_add, a ∉ op.active_approvals_to_remove
        · by_cases c3 : ∀ a ∈ op.owner_approvals_to_add, a ∉ op.owner_approvals_to_remove
          · by_cases c4 : ∀ k ∈ op.key_approvals_to_add, k ∉ op.key_approvals_to_remove
            · simp only [if_pos c1, if_pos c2, if_pos c3, if_pos c4, true_iff]
              exact ⟨hne, c1, c2, c3, c4⟩
            · simp only [if_pos c1, if_pos c2, if_pos c3, if_neg c4, reduceCtorEq, false_iff]
              exact fun h => c4 h.2.2.2.2
          · simp only [if_pos c1, if_pos c2, if_neg c3, reduceCtorEq, false_iff]
            exact fun h => c3 h.2.2.2.1
        · simp only [if_pos c1, if_neg c2, reduceCtorEq, false_iff]
          exact fun h => c2 h.2.2.1
      · simp only [if_neg c1, reduceCtorEq, false_iff]
        exact fun h => c1 h.2.1
  · rintro ⟨h1, h2, h3, h4, h5, h6, h7, h8⟩
    rw [if_pos ⟨⟨⟨⟨⟨⟨⟨h1, h2⟩, h3⟩, h4⟩, h5⟩, h6⟩, h7⟩, h8⟩]

/-- The sample update, which adds and removes the key 5, is rejected; without that
removal it passes `validate`; and the update that changes nothing is rejected. -/
theorem proposal_update_validate_iff_witness :
    proposal_update_operation.validate sample_validate_op_fee sample_validate_account_uid
      { sample_update with key_approvals_to_remove := [9] } = .ok () ∧
    sample_update.validate sample_validate_op_fee sample_validate_account_uid
      = .error .add_and_remove_approval ∧
    proposal_update_operation.validate sample_validate_op_fee sample_validate_account_uid
      { sample_update with active_approvals_to_add := [], owner_approvals_to_remove := [],
                           key_approvals_to_add := [], key_approvals_to_remove := [] }
      = .error .no_approval_change :=
  ⟨(proposal_update_validate_iff sample_validate_op_fee sample_validate_account_uid
      { sample_update with key_approvals_to_remove := [9] } rfl rfl).1.mpr
      ⟨by decide, by decide, by decide, by decide, by decide⟩,
   rfl,
   (proposal_update_validate_iff sample_validate_op_fee sample_validate_account_uid
      { sample_update with active_approvals_to_add := [], owner_approvals_to_remove := [],
                           key_approvals_to_add := [], key_approvals_to_remove := [] }
      rfl rfl).2 ⟨rfl, rfl, rfl, rfl, rfl, rfl, rfl, rfl⟩⟩

/-- Assigning into a `flat_map` keeps its keys in strictly ascending order. -/
theorem sorted_keys_flat_map_assign {V : Type} (m : List (Nat × V)) (k : Nat) (v : V)
    (h : (m.map Prod.fst).Pairwise (· < ·)) :
    ((flat_map_assign m k v).map Prod.fst).Pairwise (· < ·) := by
  induction m with
  | nil => simp [flat_map_assign]
  | cons kv m ih =>
    obtain ⟨k', v'⟩ := kv
    simp only [List.map_cons, List.pairwise_cons] at h
    obtain ⟨hhead, htail⟩ := h
    unfold flat_map_assign
    by_cases h1 : k < k'
    · simp only [h1, if_true, List.map_cons, List.pairwise_cons, List.mem_cons]
      refine ⟨?_, hhead, htail⟩
      rintro x (rfl | hx)
      · exact h1
      · exact lt_trans h1 (hhead x hx)
    · by_cases h2 : k = k'
      · subst h2
        simp only [lt_self_iff_false, if_false, if_true, List.map_cons, List.pairwise_cons]
        exact ⟨hhead, htail⟩
      · simp only [h1, h2, if_false, List.map_cons, List.pairwise_cons]
        refine ⟨?_, ih htail⟩
        intro x hx
        rcases (mem_keys_flat_map_assign m k x v).mp hx with rfl | hx
        · exact lt_of_le_of_ne (not_lt.mp h1) (fun h => h2 h.symm)
        · exact hhead x hx

/-- Assigning a list of keys into a `flat_map` keeps its keys in ascending order. -/
theorem sorted_keys_foldl_assign {V : Type} (keys : List Nat) (v : V) (m : List (Nat × V))
    (h : (m.map Prod.fst).Pairwise (· < ·)) :
    ((keys.foldl (fun m key => flat_map_assign m key v) m).map Prod.fst).Pairwise (· < ·) := by
  induction keys generalizing m with
  | nil => exact h
  | cons key keys ih => exact ih _ (sorted_keys_flat_map_assign m key v h)

/-- The loops of `get_required_authorities` write to `key_auths` only. -/
theorem key_auths_foldl_assign (keys : List public_key_type) (auth : authority) :
    keys.foldl (fun auth k => { auth with key_auths := flat_map_assign auth.key_auths k 1 })
        auth =
      { auth with key_auths := keys.foldl (fun m k => flat_map_assign m k 1) auth.key_auths } := by
  induction keys generalizing auth with
  | nil => rfl
  | cons k keys ih => rw [List.foldl_cons, ih, List.foldl_cons]

/-- The total weight of members that all weigh 1 is their number. -/
theorem sum_unit_weights (l : List (public_key_type × Nat)) (hl : ∀ kv ∈ l, kv.2 = 1) :
    (l.map Prod.snd).sum = l.length := by
  induction l with
  | nil => rfl
  | cons x l ih =>
    rw [List.map_cons, List.sum_cons, List.length_cons, hl x (List.mem_cons_self _ _),
      ih (fun kv hkv => hl kv (List.mem_cons_of_mem _ hkv))]
    exact Nat.add_comm _ _

/-- The weight signing keys bring to an authority whose keys all weigh 1 reaches the
number of its keys exactly when all of them have signed. -/
theorem signed_key_weight_unit (auth : authority) (signed : public_key_type → Bool)
    (h : ∀ kv ∈ auth.key_auths, kv.2 = 1) :
    (auth.key_auths.length ≤ auth.signed_key_weight signed ↔
      ∀ k ∈ auth.key_auths.map Prod.fst, signed k = true) := by
  unfold authority.signed_key_weight
  rw [sum_unit_weights _ (fun kv hkv => h kv (List.mem_filter.mp hkv).1)]
  constructor
  · intro hle
    have heq := List.filter_length_eq_length.mp
      (Nat.le_antisymm (List.length_filter_le _ _) hle)
    intro k hk
    obtain ⟨kv, hkv, rfl⟩ := List.mem_map.mp hk
    exact heq kv hkv
  · intro hall
    have heq : (auth.key_auths.filter (fun kv => signed kv.1)).length = auth.key_auths.length :=
      List.filter_length_eq_length.mpr
        (fun kv hkv => hall kv.1 (List.mem_map.mpr ⟨kv, hkv, rfl⟩))
    exact le_of_eq heq.symm

/-- The authority `get_required_authorities` builds before it decides whether to append
it: its keys are those to add and to remove, in ascending order, each with weight 1,
its threshold is the number of its keys, and it has no account member. -/
theorem proposal_update_key_authority (op : proposal_update_operation) :
    ∃ auth : authority,
      (∀ o, op.get_required_authorities o =
        if auth.key_auths.length > 0 then o ++ [auth] else o) ∧
      (∀ k, k ∈ auth.key_auths.map Prod.fst ↔
        (k ∈ op.key_approvals_to_add ∨ k ∈ op.key_approvals_to_remove)) ∧
      (∀ kv ∈ auth.key_auths, kv.2 = 1) ∧
      (auth.key_auths.map Prod.fst).Pairwise (· < ·) ∧
      auth.weight_threshold = auth.key_auths.length ∧
      auth.account_auths = [] := by
  refine ⟨{ weight_threshold :=
              (op.key_approvals_to_remove.foldl (fun m k => flat_map_assign m k 1)
                (op.key_approvals_to_add.foldl (fun m k => flat_map_assign m k 1) [])).length
            key_auths :=
              op.key_approvals_to_remove.foldl (fun m k => flat_map_assign m k 1)
                (op.key_approvals_to_add.foldl (fun m k => flat_map_assign m k 1) [])
            account_auths := [] }, ?_, ?_, ?_, ?_, rfl, rfl⟩
  · intro o
    unfold proposal_update_operation.get_required_authorities
    simp only [key_auths_foldl_assign]
  · intro k
    have h1 := signature_map_foldl op.key_approvals_to_add 1 [] (by simp)
    have h2 := signature_map_foldl op.key_approvals_to_remove 1 _ h1.2
    simp only
    rw [h2.1 k, h1.1 k]
    simp only [List.map_nil, List.not_mem_nil, or_false]
    tauto
  · have h1 := signature_map_foldl op.key_approvals_to_add 1 [] (by simp)
    exact (signature_map_foldl op.key_approvals_to_remove 1 _ h1.2).2
  · exact sorted_keys_foldl_assign _ 1 _ (sorted_keys_foldl_assign _ 1 [] (by simp))

/-- C28: `get_required_authorities` of a proposal update appends nothing when both key
sets are empty; otherwise it appends exactly one authority, whose keys are those of
the two sets together, each once and with weight 1, and whose `weight_threshold` is the
number of distinct keys of the two sets; so the threshold is the total weight, and the
weight of the signing keys reaches it exactly when every key added or removed has
signed. -/
theorem proposal_update_required_authorities (op : proposal_update_operation)
    (o : List authority) :
    ((op.key_approvals_to_add = [] ∧ op.key_approvals_to_remove = []) →
      op.get_required_authorities o = o) ∧
    (¬ (op.key_approvals_to_add = [] ∧ op.key_approvals_to_remove = []) →
      ∃ auth : authority,
        op.get_required_authorities o = o ++ [auth] ∧
        (∀ k, k ∈ auth.key_auths.map Prod.fst ↔
          (k ∈ op.key_approvals_to_add ∨ k ∈ op.key_approvals_to_remove)) ∧
        (auth.key_auths.map Prod.fst).Nodup ∧
        (∀ kv ∈ auth.key_auths, kv.2 = 1) ∧
        auth.account_auths = [] ∧
        auth.weight_threshold =
          (op.key_approvals_to_add ++ op.key_approvals_to_remove).toFinset.card ∧
        auth.weight_threshold = (auth.key_auths.map Prod.snd).sum ∧
        (∀ signed : public_key_type → Bool,
          auth.weight_threshold ≤ auth.signed_key_weight signed ↔
            ∀ k, (k ∈ op.key_approvals_to_add ∨ k ∈ op.key_approvals_to_remove) →
              signed k = true)) := by
  obtain ⟨auth, hres, hkeys, hone, hsorted, hthr, hacc⟩ := proposal_update_key_authority op
  have hnodup : (auth.key_auths.map Prod.fst).Nodup :=
    List.Pairwise.imp (fun h => ne_of_lt h) hsorted
  constructor
  · rintro ⟨ha, hr⟩
    rw [hres]
    have hempty : auth.key_auths = [] := by
      cases hk : auth.key_auths with
      | nil => rfl
      | cons kv rest =>
        exfalso
        have hmem : kv.1 ∈ auth.key_auths.map Prod.fst :=
          List.mem_map.mpr ⟨kv, by rw [hk]; exact List.mem_cons_self _ _, rfl⟩
        rw [hkeys, ha, hr] at hmem
        simp at hmem
    simp [hempty]
  · intro hne
    refine ⟨auth, ?_, hkeys, hnodup, hone, hacc, ?_, ?_, ?_⟩
    · rw [hres]
      have hpos : auth.key_auths.length > 0 := by
        have hex : ∃ k, k ∈ op.key_approvals_to_add ∨ k ∈ op.key_approvals_to_remove := by
          by_contra hc
          apply hne
          constructor
          · cases hl : op.key_approvals_to_add with
            | nil => rfl
            | cons k rest =>
              exact absurd ⟨k, Or.inl (by rw [hl]; exact List.mem_cons_self _ _)⟩ hc
          · cases hl : op.key_approvals_to_remove with
            | nil => rfl
            | cons k rest =>
              exact absurd ⟨k, Or.inr (by rw [hl]; exact List.mem_cons_self _ _)⟩ hc
        obtain ⟨k, hk⟩ := hex
        have hmem := (hkeys k).mpr hk
        obtain ⟨kv, hkv, _⟩ := List.mem_map.mp hmem
        exact List.length_pos_of_mem hkv
      rw [if_pos hpos]
    · have hset : (auth.key_auths.map Prod.fst).toFinset =
          (op.key_approvals_to_add ++ op.key_approvals_to_remove).toFinset := by
        ext k
        simp only [List.mem_toFinset, List.mem_append]
        exact hkeys k
      rw [← hset, List.toFinset_card_of_nodup hnodup, List.length_map]
      exact hthr
    · rw [hthr, sum_unit_weights auth.key_auths hone]
    · intro signed
      rw [hthr, signed_key_weight_unit auth signed hone]
      constructor
      · intro h k hk
        exact h k ((hkeys k).mpr hk)
      · intro h k hk
        exact h k ((hkeys k).mp hk)

/-- The sample update, with the keys 5 and 3 to add and 9 and 5 to remove: one
authority is appended, with the keys 3, 5 and 9 at weight 1 and the threshold 3; the
update without key approvals appends nothing. -/
theorem proposal_update_required_authorities_witness :
    sample_update.get_required_authorities [] =
      [{ weight_threshold := 3, key_auths := [(3, 1), (5, 1), (9, 1)] }] ∧
    proposal_update_operation.get_required_authorities
      { sample_update with key_approvals_to_add := [], key_approvals_to_remove := [] } []
      = [] ∧
    (∃ auth : authority,
      sample_update.get_required_authorities [] = [] ++ [auth] ∧
      auth.weight_threshold = ([5, 3] ++ [9, 5] : List public_key_type).toFinset.card) :=
  ⟨by decide,
   (proposal_update_required_authorities
      { sample_update with key_approvals_to_add := [], key_approvals_to_remove := [] } []).1
      ⟨rfl, rfl⟩,
   match (proposal_update_required_authorities sample_update []).2 (by decide) with
   | ⟨auth, h1, _, _, _, _, h2, _⟩ => ⟨auth, h1, h2⟩⟩

/-! ## Two inputs on which the code goes beyond its checks -/

/-- C25 at its failing input: on a poll created with `minimum_selected_items` 0 the
ballot with an empty selection passes every check up to and including the
selection-count range check, and `do_evaluate` then reads the largest element of the
empty selection. -/
theorem custom_vote_cast_empty_selection :
    (sample_ledger_with_open_poll.find_custom_vote_by_vid 7 1).map
      (fun o => (o.minimum_selected_items, o.maximum_selected_items)) = some (0, 2) ∧
    (sample_cast ∅).vote_result.card = 0 ∧
    (sample_cast ∅).vote_result.max = none ∧
    custom_vote_cast_evaluator.do_evaluate 500 sample_ledger_with_open_poll (sample_cast ∅)
      = .error .empty_set_dereference := by
  refine ⟨rfl, rfl, rfl, rfl⟩

/-- C26 at its failing input: the fee descriptor overload of `prepare_fee` accepts a
flat fee of -20, which the `asset` overload rejects as negative, and the settlement
that follows succeeds and raises the supply of the core asset from 1000 to 1020; with
a flat fee of -999500 the supply becomes 1000500, above the maximum supply of
1000000. -/
theorem process_fee_options_negative_fee :
    (generic_evaluator.prepare_fee_uid_asset 0 sample_evaluator sample_ledger 7
      { amount := -20, asset_id := 0 }).2 = .error .negative_fee ∧
    (generic_evaluator.prepare_fee_uid 0 sample_evaluator sample_ledger 7
      (sample_fee_negative 20)).2 = .ok () ∧
    (sample_prepared sample_ledger (sample_fee_negative 20)).from_prepaid
      + (sample_prepared sample_ledger (sample_fee_negative 20)).from_balance = -20 ∧
    ((sample_prepared sample_ledger (sample_fee_negative 20)).process_fee_options 0
      sample_ledger).2 = .ok () ∧
    (sample_ledger.asset_dynamic_data 0).map (fun o => o.current_supply) = some 1000 ∧
    ((((sample_prepared sample_ledger (sample_fee_negative 20)).process_fee_options 0
      sample_ledger).1.asset_dynamic_data 0).map (fun o => o.current_supply)) = some 1020 ∧
    ((((sample_prepared sample_ledger (sample_fee_negative 999500)).process_fee_options 0
      sample_ledger).1.asset_dynamic_data 0).map (fun o => o.current_supply))
      = some 1000500 ∧
    (sample_ledger.assets 0).map (fun a => a.max_supply) = some 1000000 := by
  refine ⟨rfl, rfl, rfl, rfl, rfl, rfl, rfl, rfl⟩

end Graphene
